import Mathlib

/-!
Verification development for `scripts/preprocessing_utils.py`.

The module is glue code over xarray/pandas/numpy.  We embed the datasets it
manipulates and the library operations it calls, at the granularity the
functions observe them:

* `DataArray` models an xarray DataArray (or the single-variable view of a
  Dataset): named dimensions in storage order, one coordinate array per
  dimension name, and the data as a function from a by-name index assignment
  to a rational value.
* `XDataset` models an xarray Dataset: named data variables, named
  coordinates, and attribute dictionaries.
* Library calls that can raise (missing keys, wrong dtypes, bad
  permutations) are embedded as `Option`-valued functions.
* Machine floats in coordinates are modelled as rationals; numpy
  datetime64 / cftime values as explicit calendar timestamps.
-/

namespace Preproc

/-- Calendar timestamp (year, month, day, hour, minute): the resolution at
which the pipeline observes numpy datetime64 and cftime values. -/
structure DT where
  year : ℕ
  month : ℕ
  day : ℕ
  hour : ℕ
  minute : ℕ
deriving DecidableEq, Repr

/-- Numeric key realising calendar order on valid timestamps. -/
def DT.key (d : DT) : ℕ :=
  (((d.year * 13 + d.month) * 32 + d.day) * 24 + d.hour) * 60 + d.minute

/-- Resampling frequencies the pipeline passes to `dt.floor`. -/
inductive Freq
  | hour
  | day
deriving DecidableEq, Repr

/-- `dt.floor(frequency)` on one timestamp: zero out the sub-boundary fields. -/
def DT.floor (d : DT) : Freq → DT
  | .hour => { d with minute := 0 }
  | .day => { d with hour := 0, minute := 0 }

/-- A scalar stored in a coordinate array: integer, float (as a rational),
cftime calendar object, or numpy datetime64. -/
inductive CVal
  | i (n : ℤ)
  | f (q : ℚ)
  | c (d : DT)
  | t (d : DT)
deriving DecidableEq, Repr

/-- Kind rank, used to make the comparison below total. -/
def CVal.rank : CVal → ℕ
  | .i _ => 0
  | .f _ => 0
  | .c _ => 1
  | .t _ => 2

/-- Numeric key of a scalar: numerics by value (so integers and floats are
comparable, as in numpy), timestamps by calendar order. -/
def CVal.keyQ : CVal → ℚ
  | .i n => n
  | .f q => q
  | .c d => d.key
  | .t d => d.key

/-- The order used by sorting and label slicing. -/
def CVal.le (a b : CVal) : Bool :=
  decide (a.rank < b.rank) || (a.rank == b.rank && decide (a.keyQ ≤ b.keyQ))

/-- The same order as a decidable relation, for the sorting library. -/
def cvalLE (a b : CVal) : Prop := CVal.le a b = true

instance : DecidableRel cvalLE := fun a b =>
  inferInstanceAs (Decidable (CVal.le a b = true))

/-- Array dtype kinds the code inspects; `datetime` is numpy kind M, `obj`
is an object array of cftime values. -/
inductive DType
  | int
  | float
  | datetime
  | obj
deriving DecidableEq, Repr

/-- A one-dimensional coordinate array: its dtype and its values. -/
structure Coord where
  dtype : DType
  vals : List CVal
deriving DecidableEq, Repr

/-- Value part of numpy `astype(float)`. -/
def CVal.toFloat : CVal → CVal
  | .i n => .f n
  | .f q => .f q
  | .c d => .f d.key
  | .t d => .f d.key

/-- `coord.astype(float)`: float arrays are returned unchanged, int and
datetime arrays are cast, object (cftime) arrays raise a TypeError (none). -/
def Coord.astypeFloat (c : Coord) : Option Coord :=
  match c.dtype with
  | .float => some c
  | .int => some ⟨.float, c.vals.map CVal.toFloat⟩
  | .datetime => some ⟨.float, c.vals.map CVal.toFloat⟩
  | .obj => none

/-- `indexes[dim].to_datetimeindex()`: defined on a CFTimeIndex (object
dtype, all cftime values), converting it to datetime64; anything else
raises (none). -/
def Coord.toDatetimeIndex (c : Coord) : Option Coord :=
  if c.dtype = .obj ∧ c.vals.all (fun v => match v with | .c _ => true | _ => false) then
    some ⟨.datetime, c.vals.map (fun v => match v with | .c d => .t d | w => w)⟩
  else
    none

/-- Model of an xarray DataArray: named dimensions in storage order, a
coordinate array per name (possibly with extra non-dimension coordinates),
and the data as a function from a by-name index assignment to a value.
Indexing is always clamped to the grid, reflecting that real array access
never leaves it. -/
structure DataArray where
  dims : List String
  coords : List (String × Coord)
  data : (String → ℕ) → ℚ

/-- Update the first entry carrying the given key in an association list;
xarray variable and coordinate mappings have unique keys. -/
def updFirst {β : Type} (f : β → β) : List (String × β) → String → List (String × β)
  | [], _ => []
  | (k, v) :: rest, name =>
      if k = name then (k, f v) :: rest else (k, v) :: updFirst f rest name

/-- Replace the coordinate entry with the given name. -/
def setCoord (cs : List (String × Coord)) (d : String) (c : Coord) : List (String × Coord) :=
  updFirst (fun _ => c) cs d

/-- Clamped positional lookup used by data reindexing. -/
def getIdx (idxs : List ℕ) (a : ℕ) : ℕ :=
  idxs.getD (min a (idxs.length - 1)) 0

/-- Take the positions `idxs` along dimension `d` of an array whose
coordinate on `d` is `c`: the coordinate becomes the selected values, the
data reads through the selection.  This is the common core of label
slicing, boolean selection, sortby and groupby-take. -/
def reindexDim (da : DataArray) (d : String) (c : Coord) (idxs : List ℕ) : DataArray :=
  { da with
    coords := setCoord da.coords d ⟨c.dtype, idxs.map (fun a => c.vals.getD a (.i 0))⟩,
    data := fun a => da.data (Function.update a d (getIdx idxs (a d))) }

/-- Positional comparison of two indices through the values they address. -/
def idxLE (vs : List CVal) (a b : ℕ) : Prop :=
  cvalLE (vs.getD a (.i 0)) (vs.getD b (.i 0))

instance (vs : List CVal) : DecidableRel (idxLE vs) := fun a b =>
  inferInstanceAs (Decidable (cvalLE (vs.getD a (.i 0)) (vs.getD b (.i 0))))

/-- Stable argsort of a coordinate value list (the stable lexsort
underlying xarray `sortby`). -/
def argsortCV (vs : List CVal) : List ℕ :=
  (List.range vs.length).insertionSort (idxLE vs)

/-- `sortby` for one dimension name; a name without a coordinate raises
(none). -/
def sortby1 (da : DataArray) (d : String) : Option DataArray := do
  let c ← List.lookup d da.coords
  pure (reindexDim da d c (argsortCV c.vals))

/-- `data.sortby(dims)`: sort ascending along each named dimension. -/
def sortbyDims (da : DataArray) (dims : List String) : Option DataArray :=
  dims.foldlM sortby1 da

/-- `data.transpose(*dims)`: requires the argument to be a permutation of
the array dimensions. -/
def transposeTo (da : DataArray) (dims : List String) : Option DataArray :=
  if da.dims.isPerm dims then some { da with dims := dims } else none

/-- The expected dimension list computed at the top of standardize_dims. -/
def canonicalDims (da : DataArray) : List String :=
  if "lev" ∈ da.dims then ["time", "lat", "lon", "lev"] else ["time", "lat", "lon"]

/-- One iteration of the loop in standardize_dims: a time coordinate that is
not datetime64 is converted with to_datetimeindex, any other coordinate is
cast to float; reading a missing coordinate raises (none). -/
def fixCoord (da : DataArray) (dim : String) : Option DataArray := do
  let c ← List.lookup dim da.coords
  if dim = "time" then
    if c.dtype ≠ .datetime then
      let c2 ← c.toDatetimeIndex
      pure { da with coords := setCoord da.coords dim c2 }
    else
      pure da
  else
    let c2 ← c.astypeFloat
    pure { da with coords := setCoord da.coords dim c2 }

/-- `standardize_dims` from preprocessing_utils.py. -/
def standardize_dims (da : DataArray) : Option DataArray := do
  let dims := canonicalDims da
  let da2 ← dims.foldlM fixCoord da
  let da3 ← sortbyDims da2 dims
  transposeTo da3 dims

/-- The coordinate values are ascending in the CVal order. -/
def sortedCV (vs : List CVal) : Prop :=
  List.Chain' cvalLE vs

/-- Structural ascending check realising the decision of sortedCV. -/
def sortedCVb : List CVal → Bool
  | [] => true
  | [_] => true
  | a :: b :: t => CVal.le a b && sortedCVb (b :: t)

instance (vs : List CVal) : Decidable (sortedCV vs) :=
  decidable_of_iff (sortedCVb vs = true) (by
    induction vs with
    | nil => simp [sortedCVb, sortedCV]
    | cons a t ih =>
      cases t with
      | nil => simp [sortedCVb, sortedCV]
      | cons b t2 =>
        simp only [sortedCVb, Bool.and_eq_true, sortedCV, List.chain'_cons]
        rw [show (sortedCVb (b :: t2) = true) ↔ sortedCV (b :: t2) from ih]
        rw [show sortedCV (b :: t2) = List.Chain' cvalLE (b :: t2) from rfl]
        simp [cvalLE])

/-- `data.sel(d=slice(lo, hi))`: pandas computes slice_locs on a monotonic
increasing index by binary search, inclusive of both endpoint labels; the
model mirrors the searchsorted arithmetic.  A non-increasing index raises
here (none); the pipeline only slices standardized, ascending coordinates. -/
def sliceSel (da : DataArray) (d : String) (lo hi : CVal) : Option DataArray := do
  let c ← List.lookup d da.coords
  if sortedCV c.vals then
    let start := c.vals.countP (fun v => !CVal.le lo v)
    let stop := c.vals.countP (fun v => CVal.le v hi)
    pure (reindexDim da d c (((List.range c.vals.length).drop start).take (stop - start)))
  else
    none

/-- `time.year in years and time.month in months` for one timestamp. -/
def ymIn (years months : List ℕ) : CVal → Bool
  | .t d => years.contains d.year && months.contains d.month
  | .c d => years.contains d.year && months.contains d.month
  | _ => false

/-- The temporal filter
`data.sel(time=(data[time.year].isin(years)) & (data[time.month].isin(months)))`:
boolean selection along time; the dt accessor requires a datetime-like
(datetime64 or cftime) coordinate. -/
def timeSel (da : DataArray) (years months : List ℕ) : Option DataArray := do
  let c ← List.lookup "time" da.coords
  if c.dtype = .datetime ∨ c.dtype = .obj then
    pure (reindexDim da "time" c
      ((List.range c.vals.length).filter (fun a => ymIn years months (c.vals.getD a (.i 0)))))
  else
    none

/-- `subset_dims` from preprocessing_utils.py; `levrange = none` models the
Python default None (or any falsy level range). -/
def subset_dims (da : DataArray) (years months : List ℕ)
    (latrange lonrange : CVal × CVal) (levrange : Option (CVal × CVal)) :
    Option DataArray := do
  let da1 ← sliceSel da "lat" latrange.1 latrange.2
  let da2 ← sliceSel da1 "lon" lonrange.1 lonrange.2
  let da3 ← timeSel da2 years months
  match levrange with
  | some lr => if "lev" ∈ da3.dims then sliceSel da3 "lev" lr.1 lr.2 else pure da3
  | none => pure da3

/-- `time.dt.floor(frequency)` on one coordinate value. -/
def floorCV (fr : Freq) : CVal → CVal
  | .t d => .t (d.floor fr)
  | .c d => .c (d.floor fr)
  | v => v

/-- For each distinct key of `ts` in ascending order, the position of its
first occurrence in `ts`. -/
def firstOccIdxs (ts : List CVal) : List ℕ :=
  ((ts.insertionSort cvalLE).dedup).map (fun k => ts.findIdx (fun v => v == k))

/-- `data.groupby(time).first()`: rows are grouped by identical time
values, the result is indexed by the sorted distinct keys, and each group
contributes its first row (the model carries no NaNs, so first means first
element of the group). -/
def groupbyTimeFirst (da : DataArray) (c : Coord) : DataArray :=
  reindexDim da "time" c (firstOccIdxs c.vals)

/-- `resample_time` from preprocessing_utils.py.  The assignment
`data.coords[time] = data.time.dt.floor(frequency)` mutates the caller's
argument, so the embedding returns a pair: first the state of the argument
after the call, second the returned grouped dataset. -/
def resample_time (da : DataArray) (fr : Freq) : Option (DataArray × DataArray) := do
  let c ← List.lookup "time" da.coords
  if c.dtype = .datetime ∨ c.dtype = .obj then
    let c2 : Coord := ⟨c.dtype, c.vals.map (floorCV fr)⟩
    let da2 := { da with coords := setCoord da.coords "time" c2 }
    pure (da2, groupbyTimeFirst da2 c2)
  else
    none

/-- A data variable of an xarray Dataset. -/
structure XVar where
  dims : List String
  data : (String → ℕ) → ℚ
  attrs : List (String × String)

/-- A coordinate of an xarray Dataset together with its attributes. -/
structure XCoord where
  coord : Coord
  attrs : List (String × String)

/-- Model of an xarray Dataset: data variables, coordinates, global
attributes. -/
structure XDataset where
  vars : List (String × XVar)
  coords : List (String × XCoord)
  attrs : List (String × String)

/-- Overwrite the attributes of the named data variable. -/
def setVarAttrs (vs : List (String × XVar)) (name : String) (ats : List (String × String)) :
    List (String × XVar) :=
  updFirst (fun v => { v with attrs := ats }) vs name

/-- Overwrite the attributes of the named coordinate. -/
def setXCoordAttrs (cs : List (String × XCoord)) (name : String) (ats : List (String × String)) :
    List (String × XCoord) :=
  updFirst (fun v => { v with attrs := ats }) cs name

/-- `ds.name.attrs = ats`: attribute access resolves to the data variable
or coordinate of that name; a missing name raises AttributeError (none). -/
def setAttrsOn (ds : XDataset) (name : String) (ats : List (String × String)) : Option XDataset :=
  if (List.lookup name ds.vars).isSome then
    some { ds with vars := setVarAttrs ds.vars name ats }
  else if (List.lookup name ds.coords).isSome then
    some { ds with coords := setXCoordAttrs ds.coords name ats }
  else
    none

/-- Left-pad a decimal numeral with zeros to width `w`. -/
def padNum (w : ℕ) (n : ℕ) : String :=
  let s := toString n
  String.mk (List.replicate (w - s.length) (Char.ofNat 48)) ++ s

/-- `datetime.today().strftime(%Y-%m-%d)` for an explicit date. -/
def fmtDate (y m d : ℕ) : String :=
  padNum 4 y ++ "-" ++ padNum 2 m ++ "-" ++ padNum 2 d

/-- The history string written by create_dataset. -/
def historyStr (date author email : String) : String :=
  "Created on " ++ date ++ " by " ++ author ++ " (" ++ email ++ ")"

/-- `create_dataset` from preprocessing_utils.py.  `datetime.today()` is
ambient state, passed explicitly as the year, month and day arguments. -/
def create_dataset (da : DataArray) (shortname longname units source author email : String)
    (y m d : ℕ) : Option XDataset := do
  let cs ← da.dims.mapM (fun dim => (List.lookup dim da.coords).map (fun c => (dim, XCoord.mk c [])))
  let ds0 : XDataset :=
    { vars := [(shortname, { dims := da.dims, data := da.data, attrs := [] })],
      coords := cs, attrs := [] }
  let ds1 := { ds0 with vars := setVarAttrs ds0.vars shortname [("long_name", longname), ("units", units)] }
  let ds2 ← setAttrsOn ds1 "time" [("long_name", "Time")]
  let ds3 ← setAttrsOn ds2 "lat" [("long_name", "Latitude"), ("units", "°N")]
  let ds4 ← setAttrsOn ds3 "lon" [("long_name", "Longitude"), ("units", "°E")]
  let ds5 ← if "lev" ∈ da.dims then
      setAttrsOn ds4 "lev" [("long_name", "Pressure level"), ("units", "hPa")]
    else
      pure ds4
  pure { ds5 with attrs := [("source", source), ("history", historyStr (fmtDate y m d) author email)] }

/-- `os.path.join` for two posix path components. -/
def posixJoin (a b : String) : String :=
  if b.data.head? = some (Char.ofNat 47) then b
  else if a = "" ∨ a.data.getLast? = some (Char.ofNat 47) then a ++ b
  else a ++ "/" ++ b

/-- `save_dataset` from preprocessing_utils.py: it writes one file at the
path OBS_<first variable key>.nc inside savedir; the model returns the path
written.  `list(data.keys())[0]` raises on a dataset without data
variables (none). -/
def save_dataset (ds : XDataset) (savedir : String) : Option String := do
  let k ← (ds.vars.map Prod.fst).head?
  pure (posixJoin savedir ("OBS_" ++ k ++ ".nc"))

/-- The label substitution requested by get_era5. -/
def era5Sub (s : String) : String :=
  if s = "latitude" then "lat"
  else if s = "longitude" then "lon"
  else if s = "level" then "lev"
  else s

/-- Labels a rename key can resolve to: variable names, coordinate names,
and the dims of any variable. -/
def renameTargets (ds : XDataset) : List String :=
  ds.vars.map Prod.fst ++ ds.coords.map Prod.fst ++ (ds.vars.map (fun p => p.2.dims)).flatten

/-- The rename performed inside get_era5 on the freshly opened ERA5 store:
xarray `Dataset.rename` raises when a key names nothing; otherwise it
substitutes dimension, coordinate and variable labels and touches no
values. -/
def era5_rename (ds : XDataset) : Option XDataset :=
  if "latitude" ∈ renameTargets ds ∧ "longitude" ∈ renameTargets ds ∧ "level" ∈ renameTargets ds then
    some { vars := ds.vars.map (fun p => (era5Sub p.1, { p.2 with dims := p.2.dims.map era5Sub })),
           coords := ds.coords.map (fun p => (era5Sub p.1, p.2)),
           attrs := ds.attrs }
  else
    none

/-- A data function is insensitive to out-of-grid indices along `d` once
they are clamped to the coordinate length `n`; every reindexing step
produces (and preserves) data of this shape. -/
def ClampedAt (f : (String → ℕ) → ℚ) (d : String) (n : ℕ) : Prop :=
  ∀ a, f a = f (Function.update a d (min (a d) (n - 1)))

/-- Time coordinate of the concrete resampling input: hourly stamps 00:00,
00:30, 01:00 of 2020-01-01. -/
def exResampleCoord : Coord :=
  ⟨.datetime, [.t ⟨2020, 1, 1, 0, 0⟩, .t ⟨2020, 1, 1, 0, 30⟩, .t ⟨2020, 1, 1, 1, 0⟩]⟩

/-- Concrete input for the resampling claims: hourly stamps 00:00, 00:30,
01:00 of 2020-01-01 carrying values 10, 20, 30. -/
def exResample : DataArray :=
  { dims := ["time"],
    coords := [("time", exResampleCoord)],
    data := fun a => ([10, 20, 30] : List ℚ).getD (a "time") 0 }

/-- Monthly time axis spanning 2020-01 through 2021-12. -/
def exSubTime : Coord :=
  ⟨.datetime, (List.range 24).map (fun k => .t ⟨2020 + k / 12, k % 12 + 1, 1, 0, 0⟩)⟩

/-- Latitude coordinate 0, 10, 20, 30. -/
def exSubLat : Coord := ⟨.float, [.f 0, .f 10, .f 20, .f 30]⟩

/-- Longitude coordinate 100, 110. -/
def exSubLon : Coord := ⟨.float, [.f 100, .f 110]⟩

/-- Concrete input for the subsetting claim: lat values 0, 10, 20, 30, two
lon values, and a monthly time axis spanning 2020-01 through 2021-12. -/
def exSubset : DataArray :=
  { dims := ["time", "lat", "lon"],
    coords := [("time", exSubTime), ("lat", exSubLat), ("lon", exSubLon)],
    data := fun a => (a "time" : ℚ) + (a "lat") / 10 + (a "lon") / 100 }

/-- Concrete input for the standardization claims: unsorted coordinates, a
cftime time axis, integer latitudes, and dimensions out of canonical
order. -/
def exRaw : DataArray :=
  { dims := ["lat", "lon", "time"],
    coords := [("time", ⟨.obj, [.c ⟨2020, 1, 2, 0, 0⟩, .c ⟨2020, 1, 1, 0, 0⟩]⟩),
      ("lat", ⟨.int, [.i 20, .i 10]⟩),
      ("lon", ⟨.float, [.f 5, .f 15]⟩)],
    data := fun a => (a "time" : ℚ) * 100 + (a "lat") * 10 + a "lon" }

/-- Concrete input for the create_dataset claims: canonical dimensions plus
a level dimension and one non-dimension coordinate. -/
def exCreate : DataArray :=
  { dims := ["time", "lat", "lon", "lev"],
    coords := [("time", ⟨.datetime, [.t ⟨2020, 6, 1, 0, 0⟩]⟩),
      ("lat", ⟨.float, [.f 0]⟩),
      ("lon", ⟨.float, [.f 100]⟩),
      ("lev", ⟨.float, [.f 500]⟩),
      ("extra", ⟨.float, [.f 1]⟩)],
    data := fun _ => 7 }

/-- Concrete input missing the lat dimension, for the safety claim. -/
def exNoLat : DataArray :=
  { dims := ["time", "lon"],
    coords := [("time", ⟨.datetime, [.t ⟨2020, 6, 1, 0, 0⟩]⟩),
      ("lon", ⟨.float, [.f 100]⟩)],
    data := fun _ => 7 }

/-- Concrete dataset whose single data variable is named precip, for the
output-naming claim. -/
def exSave : XDataset :=
  { vars := [("precip", { dims := ["time"], data := fun _ => 0, attrs := [] })],
    coords := [("time", ⟨⟨.datetime, [.t ⟨2020, 1, 1, 0, 0⟩]⟩, []⟩)],
    attrs := [] }

/-- Concrete stand-in for the opened ERA5 store, for the rename claim. -/
def exEra5 : XDataset :=
  { vars := [("temperature",
      XVar.mk ["time", "level", "latitude", "longitude"] (fun _ => 0) [("units", "K")])],
    coords := [("time", ⟨⟨.datetime, [.t ⟨2020, 1, 1, 0, 0⟩]⟩, []⟩),
      ("level", ⟨⟨.int, [.i 500]⟩, []⟩),
      ("latitude", ⟨⟨.float, [.f 0]⟩, []⟩),
      ("longitude", ⟨⟨.float, [.f 0]⟩, []⟩)],
    attrs := [] }

/-! ### Association-list lemmas -/

theorem updFirst_keys {β : Type} (f : β → β) (l : List (String × β)) (name : String) :
    (updFirst f l name).map Prod.fst = l.map Prod.fst := by
  induction l with
  | nil => rfl
  | cons hd tl ih =>
    obtain ⟨k, v⟩ := hd
    by_cases hk : k = name
    · simp [updFirst, hk]
    · simp [updFirst, hk, ih]

theorem lookup_updFirst_self {β : Type} (f : β → β) (l : List (String × β)) (name : String) :
    List.lookup name (updFirst f l name) = (List.lookup name l).map f := by
  induction l with
  | nil => rfl
  | cons hd tl ih =>
    obtain ⟨k, v⟩ := hd
    by_cases hk : k = name
    · subst hk
      simp [updFirst, List.lookup]
    · have hb : (name == k) = false := by simp [Ne.symm hk]
      simp [updFirst, hk, List.lookup, hb, ih]

theorem lookup_updFirst_ne {β : Type} (f : β → β) (l : List (String × β)) (name d : String)
    (h : d ≠ name) :
    List.lookup d (updFirst f l name) = List.lookup d l := by
  induction l with
  | nil => rfl
  | cons hd tl ih =>
    obtain ⟨k, v⟩ := hd
    by_cases hk : k = name
    · subst hk
      have hb : (d == k) = false := by simp [h]
      simp [updFirst, List.lookup, hb, ih]
    · by_cases hd2 : d = k
      · subst hd2
        simp [updFirst, hk, List.lookup]
      · have hb : (d == k) = false := by simp [hd2]
        simp [updFirst, hk, List.lookup, hb, ih]

theorem updFirst_eq_self {β : Type} (f : β → β) (l : List (String × β)) (name : String) (v : β)
    (h : List.lookup name l = some v) (hf : f v = v) :
    updFirst f l name = l := by
  induction l with
  | nil => rfl
  | cons hd tl ih =>
    obtain ⟨k, w⟩ := hd
    by_cases hk : k = name
    · subst hk
      simp only [List.lookup, beq_self_eq_true] at h
      simp only [Option.some.injEq] at h
      simp [updFirst, h ▸ hf]
    · have hb : (name == k) = false := by simp [Ne.symm hk]
      simp only [List.lookup, hb] at h
      simp [updFirst, hk, ih h]

theorem lookup_eq_none_of_not_mem {β : Type} (l : List (String × β)) (k : String)
    (h : k ∉ l.map Prod.fst) : List.lookup k l = none := by
  induction l with
  | nil => rfl
  | cons hd tl ih =>
    obtain ⟨k2, v⟩ := hd
    simp only [List.map_cons, List.mem_cons] at h
    push_neg at h
    have hb : (k == k2) = false := by simp [h.1]
    simp [List.lookup, hb, ih h.2]

theorem lookup_isSome_of_mem {β : Type} (l : List (String × β)) (k : String)
    (h : k ∈ l.map Prod.fst) : (List.lookup k l).isSome := by
  induction l with
  | nil => simp at h
  | cons hd tl ih =>
    obtain ⟨k2, v⟩ := hd
    by_cases hk : k = k2
    · subst hk
      simp [List.lookup]
    · simp only [List.map_cons, List.mem_cons] at h
      rcases h with h | h
      · exact absurd h hk
      · have hb : (k == k2) = false := by simp [hk]
        simp [List.lookup, hb, ih h]

/-! ### Claim C6: output naming of save_dataset -/

/-- C6: for every dataset and directory, save_dataset writes one file whose
path is the given directory joined with OBS_ followed by the dataset's
(assumed single, here: first) variable key and the .nc extension. -/
theorem save_dataset_path (ds : XDataset) (dir k : String)
    (h : (ds.vars.map Prod.fst).head? = some k) :
    save_dataset ds dir = some (posixJoin dir ("OBS_" ++ k ++ ".nc")) := by
  unfold save_dataset
  rw [h]
  rfl

/-- Witness for C6: a dataset whose single key is precip saved into /tmp/x
produces the file /tmp/x/OBS_precip.nc. -/
theorem save_dataset_path_witness :
    (exSave.vars.map Prod.fst).head? = some "precip"
      ∧ save_dataset exSave "/tmp/x" = some "/tmp/x/OBS_precip.nc" :=
  ⟨rfl, (save_dataset_path exSave "/tmp/x" "precip" rfl).trans (by decide)⟩

/-! ### Claim C5: the rename inside get_era5 -/

/-- C5: get_era5 renames exactly latitude to lat, longitude to lon and
level to lev; every other label is unchanged, and no coordinate or data
values are transformed by the renaming. -/
theorem get_era5_rename_spec (ds : XDataset)
    (h : "latitude" ∈ renameTargets ds ∧ "longitude" ∈ renameTargets ds
      ∧ "level" ∈ renameTargets ds) :
    (∃ r, era5_rename ds = some r
      ∧ r.coords.map Prod.fst = ds.coords.map (fun p => era5Sub p.1)
      ∧ r.coords.map Prod.snd = ds.coords.map Prod.snd
      ∧ r.vars.map Prod.fst = ds.vars.map (fun p => era5Sub p.1)
      ∧ r.vars.map (fun p => p.2.dims) = ds.vars.map (fun p => p.2.dims.map era5Sub)
      ∧ r.vars.map (fun p => p.2.data) = ds.vars.map (fun p => p.2.data)
      ∧ r.vars.map (fun p => p.2.attrs) = ds.vars.map (fun p => p.2.attrs)
      ∧ r.attrs = ds.attrs)
    ∧ era5Sub "latitude" = "lat" ∧ era5Sub "longitude" = "lon" ∧ era5Sub "level" = "lev"
    ∧ ∀ s : String, s ≠ "latitude" → s ≠ "longitude" → s ≠ "level" → era5Sub s = s := by
  have hr : era5_rename ds = some
      { vars := ds.vars.map (fun p => (era5Sub p.1, { p.2 with dims := p.2.dims.map era5Sub })),
        coords := ds.coords.map (fun p => (era5Sub p.1, p.2)),
        attrs := ds.attrs } := by
    unfold era5_rename
    rw [if_pos h]
  refine ⟨⟨_, hr, ?_, ?_, ?_, ?_, ?_, ?_, rfl⟩, rfl, rfl, rfl, ?_⟩
  · simp [List.map_map]
  · simp [List.map_map]
  · simp [List.map_map]
  · simp [List.map_map]
  · simp [List.map_map]
  · simp [List.map_map]
  · intro s h1 h2 h3
    simp [era5Sub, h1, h2, h3]

/-- Witness for C5 at a concrete stand-in for the ERA5 store. -/
theorem get_era5_rename_spec_witness :
    ("latitude" ∈ renameTargets exEra5 ∧ "longitude" ∈ renameTargets exEra5
      ∧ "level" ∈ renameTargets exEra5)
    ∧ ((∃ r, era5_rename exEra5 = some r
      ∧ r.coords.map Prod.fst = exEra5.coords.map (fun p => era5Sub p.1)
      ∧ r.coords.map Prod.snd = exEra5.coords.map Prod.snd
      ∧ r.vars.map Prod.fst = exEra5.vars.map (fun p => era5Sub p.1)
      ∧ r.vars.map (fun p => p.2.dims) = exEra5.vars.map (fun p => p.2.dims.map era5Sub)
      ∧ r.vars.map (fun p => p.2.data) = exEra5.vars.map (fun p => p.2.data)
      ∧ r.vars.map (fun p => p.2.attrs) = exEra5.vars.map (fun p => p.2.attrs)
      ∧ r.attrs = exEra5.attrs)
    ∧ era5Sub "latitude" = "lat" ∧ era5Sub "longitude" = "lon" ∧ era5Sub "level" = "lev"
    ∧ ∀ s : String, s ≠ "latitude" → s ≠ "longitude" → s ≠ "level" → era5Sub s = s) :=
  ⟨by decide, get_era5_rename_spec exEra5 (by decide)⟩

/-! ### Lemmas on the create_dataset pipeline -/

theorem mem_of_lookup_isSome {β : Type} (l : List (String × β)) (k : String)
    (h : (List.lookup k l).isSome) : k ∈ l.map Prod.fst := by
  induction l with
  | nil => simp [List.lookup] at h
  | cons hd tl ih =>
    obtain ⟨k2, v⟩ := hd
    by_cases hk : k = k2
    · simp [hk]
    · have hb : (k == k2) = false := by simp [hk]
      simp only [List.lookup, hb] at h
      simp [ih h]

theorem mapM_coordKeys (dims : List String) (coords : List (String × Coord))
    (cs : List (String × XCoord))
    (h : dims.mapM (fun dim => (List.lookup dim coords).map (fun c => (dim, XCoord.mk c []))) = some cs) :
    cs.map Prod.fst = dims := by
  induction dims generalizing cs with
  | nil =>
    simp only [List.mapM_nil, pure, Option.some.injEq] at h
    simp [← h]
  | cons x xs ih =>
    rw [List.mapM_cons] at h
    cases hfx : List.lookup x coords with
    | none => simp [hfx] at h
    | some c =>
      simp only [hfx, Option.map_some', Option.bind_eq_bind, Option.some_bind,
        Option.pure_def, Option.bind_eq_some, Option.some.injEq] at h
      obtain ⟨r, hr, rfl⟩ := h
      simp [ih r hr]

theorem mapM_coordLookup (dims : List String) (coords : List (String × Coord))
    (cs : List (String × XCoord))
    (h : dims.mapM (fun dim => (List.lookup dim coords).map (fun c => (dim, XCoord.mk c []))) = some cs)
    (d : String) (hd : d ∈ dims) :
    ∃ c, List.lookup d coords = some c ∧ List.lookup d cs = some (XCoord.mk c []) := by
  induction dims generalizing cs with
  | nil => simp at hd
  | cons x xs ih =>
    rw [List.mapM_cons] at h
    cases hfx : List.lookup x coords with
    | none => simp [hfx] at h
    | some c =>
      simp only [hfx, Option.map_some', Option.bind_eq_bind, Option.some_bind,
        Option.pure_def, Option.bind_eq_some, Option.some.injEq] at h
      obtain ⟨r, hr, rfl⟩ := h
      by_cases hdx : d = x
      · subst hdx
        exact ⟨c, hfx, by simp [List.lookup]⟩
      · rcases List.mem_cons.mp hd with h1 | h1
        · exact absurd h1 hdx
        · obtain ⟨c2, hc2, hc2l⟩ := ih r hr h1
          have hb : (d == x) = false := by simp [hdx]
          exact ⟨c2, hc2, by simp [List.lookup, hb, hc2l]⟩

theorem setAttrsOn_keys (ds ds' : XDataset) (name : String) (ats : List (String × String))
    (h : setAttrsOn ds name ats = some ds') :
    ds'.vars.map Prod.fst = ds.vars.map Prod.fst
    ∧ ds'.coords.map Prod.fst = ds.coords.map Prod.fst
    ∧ ds'.attrs = ds.attrs := by
  unfold setAttrsOn at h
  by_cases h1 : (List.lookup name ds.vars).isSome
  · rw [if_pos h1] at h
    obtain rfl := Option.some.inj h
    exact ⟨updFirst_keys _ _ _, rfl, rfl⟩
  · rw [if_neg h1] at h
    by_cases h2 : (List.lookup name ds.coords).isSome
    · rw [if_pos h2] at h
      obtain rfl := Option.some.inj h
      exact ⟨rfl, updFirst_keys _ _ _, rfl⟩
    · rw [if_neg h2] at h
      exact absurd h (by simp)

theorem setAttrsOn_some_of_vars_none (ds ds' : XDataset) (name : String)
    (ats : List (String × String)) (h1 : List.lookup name ds.vars = none)
    (h : setAttrsOn ds name ats = some ds') :
    (List.lookup name ds.coords).isSome
    ∧ ds' = { ds with coords := setXCoordAttrs ds.coords name ats } := by
  unfold setAttrsOn at h
  rw [h1] at h
  simp only [Option.isSome_none, Bool.false_eq_true, if_false] at h
  by_cases h2 : (List.lookup name ds.coords).isSome
  · rw [if_pos h2] at h
    exact ⟨h2, (Option.some.inj h).symm⟩
  · rw [if_neg h2] at h
    exact absurd h (by simp)

theorem setAttrsOn_some_mem (ds ds' : XDataset) (name : String) (ats : List (String × String))
    (h : setAttrsOn ds name ats = some ds') :
    (List.lookup name ds.vars).isSome ∨ (List.lookup name ds.coords).isSome := by
  unfold setAttrsOn at h
  by_cases h1 : (List.lookup name ds.vars).isSome
  · exact Or.inl h1
  · rw [if_neg h1] at h
    by_cases h2 : (List.lookup name ds.coords).isSome
    · exact Or.inr h2
    · rw [if_neg h2] at h
      exact absurd h (by simp)

theorem create_dataset_destruct (da : DataArray) (sn ln un so au em : String) (y m d : ℕ)
    (ds : XDataset) (h : create_dataset da sn ln un so au em y m d = some ds) :
    ∃ cs ds2 ds3 ds4 ds5,
      da.dims.mapM (fun dim => (List.lookup dim da.coords).map (fun c => (dim, XCoord.mk c [])))
        = some cs
      ∧ setAttrsOn ⟨setVarAttrs [(sn, ⟨da.dims, da.data, []⟩)] sn [("long_name", ln), ("units", un)],
          cs, []⟩ "time" [("long_name", "Time")] = some ds2
      ∧ setAttrsOn ds2 "lat" [("long_name", "Latitude"), ("units", "°N")] = some ds3
      ∧ setAttrsOn ds3 "lon" [("long_name", "Longitude"), ("units", "°E")] = some ds4
      ∧ (if "lev" ∈ da.dims then
            setAttrsOn ds4 "lev" [("long_name", "Pressure level"), ("units", "hPa")]
          else some ds4) = some ds5
      ∧ ds = { ds5 with attrs := [("source", so), ("history", historyStr (fmtDate y m d) au em)] } := by
  unfold create_dataset at h
  by_cases hlev : "lev" ∈ da.dims
  · simp only [if_pos hlev] at h
    simp only [Option.bind_eq_bind, Option.pure_def, Option.bind_eq_some, Option.some.injEq] at h
    obtain ⟨cs, hcs, ds2, h2, ds3, h3, ds4, h4, ds5, h5, hds⟩ := h
    exact ⟨cs, ds2, ds3, ds4, ds5, hcs, h2, h3, h4, by rw [if_pos hlev]; exact h5, hds.symm⟩
  · simp only [if_neg hlev] at h
    simp only [Option.bind_eq_bind, Option.pure_def, Option.bind_eq_some, Option.some.injEq] at h
    obtain ⟨cs, hcs, ds2, h2, ds3, h3, ds4, h4, ds5, rfl, hds⟩ := h
    exact ⟨cs, ds2, ds3, ds4, ds4, hcs, h2, h3, h4, by rw [if_neg hlev], hds.symm⟩

/-! ### Claim C8: output dataset invariant of create_dataset -/

/-- C8: every dataset returned by create_dataset has exactly one data
variable, coordinates exactly the dimensions of the source array (so
non-dimension coordinates are not carried over), and a top-level
provenance attribute recording source, creation date, author and contact
email. -/
theorem create_dataset_invariant (da : DataArray) (sn ln un so au em : String) (y m d : ℕ)
    (h : (create_dataset da sn ln un so au em y m d).isSome) :
    ∃ ds, create_dataset da sn ln un so au em y m d = some ds
      ∧ ds.vars.map Prod.fst = [sn]
      ∧ ds.coords.map Prod.fst = da.dims
      ∧ ds.attrs = [("source", so), ("history", historyStr (fmtDate y m d) au em)] := by
  obtain ⟨ds, hds⟩ := Option.isSome_iff_exists.mp h
  obtain ⟨cs, ds2, ds3, ds4, ds5, hcs, h2, h3, h4, h5, rfl⟩ :=
    create_dataset_destruct _ _ _ _ _ _ _ _ _ _ _ hds
  have k2 := setAttrsOn_keys _ _ _ _ h2
  have k3 := setAttrsOn_keys _ _ _ _ h3
  have k4 := setAttrsOn_keys _ _ _ _ h4
  have k5 : ds5.vars.map Prod.fst = ds4.vars.map Prod.fst
      ∧ ds5.coords.map Prod.fst = ds4.coords.map Prod.fst := by
    by_cases hlev : "lev" ∈ da.dims
    · rw [if_pos hlev] at h5
      exact ⟨(setAttrsOn_keys _ _ _ _ h5).1, (setAttrsOn_keys _ _ _ _ h5).2.1⟩
    · rw [if_neg hlev] at h5
      obtain rfl := Option.some.inj h5
      exact ⟨rfl, rfl⟩
  refine ⟨_, hds, ?_, ?_, rfl⟩
  · show ds5.vars.map Prod.fst = [sn]
    rw [k5.1, k4.1, k3.1, k2.1]
    show (setVarAttrs [(sn, _)] sn _).map Prod.fst = [sn]
    rw [setVarAttrs, updFirst_keys]
    rfl
  · show ds5.coords.map Prod.fst = da.dims
    rw [k5.2, k4.2.1, k3.2.1, k2.2.1]
    exact mapM_coordKeys _ _ _ hcs

/-- Witness for C8 at a concrete array with a level dimension and one
non-dimension coordinate. -/
theorem create_dataset_invariant_witness :
    (create_dataset exCreate "pr" "Precipitation" "mm" "IMERG" "A. Person" "ap@example.org"
        2026 10 12).isSome
    ∧ ∃ ds, create_dataset exCreate "pr" "Precipitation" "mm" "IMERG" "A. Person" "ap@example.org"
        2026 10 12 = some ds
      ∧ ds.vars.map Prod.fst = ["pr"]
      ∧ ds.coords.map Prod.fst = exCreate.dims
      ∧ ds.attrs = [("source", "IMERG"),
          ("history", historyStr (fmtDate 2026 10 12) "A. Person" "ap@example.org")] :=
  ⟨by decide,
    create_dataset_invariant exCreate "pr" "Precipitation" "mm" "IMERG" "A. Person"
      "ap@example.org" 2026 10 12 (by decide)⟩

/-! ### Claim C7: attribute completeness of create_dataset -/

/-- C7: for every successful call (whose variable name does not shadow a
coordinate name), the history attribute is exactly the string embedding
today's date in YYYY-MM-DD form and the author and email passed in, and
the coordinates carry the fixed attributes: time Time; lat Latitude in
degrees north; lon Longitude in degrees east; and lev Pressure level in
hPa exactly when a lev dimension is present. -/
theorem create_dataset_attrs (da : DataArray) (sn ln un so au em : String) (y m d : ℕ)
    (hsn : sn ∉ (["time", "lat", "lon", "lev"] : List String))
    (h : (create_dataset da sn ln un so au em y m d).isSome) :
    ∃ ds, create_dataset da sn ln un so au em y m d = some ds
      ∧ List.lookup "history" ds.attrs
          = some ("Created on " ++ fmtDate y m d ++ " by " ++ au ++ " (" ++ em ++ ")")
      ∧ (List.lookup "time" ds.coords).map XCoord.attrs = some [("long_name", "Time")]
      ∧ (List.lookup "lat" ds.coords).map XCoord.attrs
          = some [("long_name", "Latitude"), ("units", "°N")]
      ∧ (List.lookup "lon" ds.coords).map XCoord.attrs
          = some [("long_name", "Longitude"), ("units", "°E")]
      ∧ (List.lookup "lev" ds.coords).map XCoord.attrs
          = (if "lev" ∈ da.dims then some [("long_name", "Pressure level"), ("units", "hPa")]
             else none) := by
  simp only [List.mem_cons, List.not_mem_nil, or_false, not_or] at hsn
  obtain ⟨hsnT, hsnLa, hsnLo, hsnLe⟩ := hsn
  obtain ⟨ds, hds⟩ := Option.isSome_iff_exists.mp h
  obtain ⟨cs, ds2, ds3, ds4, ds5, hcs, h2, h3, h4, h5, rfl⟩ :=
    create_dataset_destruct _ _ _ _ _ _ _ _ _ _ _ hds
  have hkeys : cs.map Prod.fst = da.dims := mapM_coordKeys _ _ _ hcs
  have hv1 : (setVarAttrs [(sn, (⟨da.dims, da.data, []⟩ : XVar))] sn
      [("long_name", ln), ("units", un)]).map Prod.fst = [sn] := by
    rw [setVarAttrs, updFirst_keys]
    rfl
  have hvnone : ∀ nm : String, nm ≠ sn →
      List.lookup nm (setVarAttrs [(sn, (⟨da.dims, da.data, []⟩ : XVar))] sn
        [("long_name", ln), ("units", un)]) = none := by
    intro nm hnm
    refine lookup_eq_none_of_not_mem _ _ ?_
    rw [hv1]
    intro hmem
    rw [List.mem_singleton] at hmem
    exact hnm hmem
  obtain ⟨hTsome, rfl⟩ := setAttrsOn_some_of_vars_none _ _ _ _ (hvnone _ (Ne.symm hsnT)) h2
  obtain ⟨hLasome, rfl⟩ := setAttrsOn_some_of_vars_none _ _ _ _ (hvnone _ (Ne.symm hsnLa)) h3
  obtain ⟨hLosome, rfl⟩ := setAttrsOn_some_of_vars_none _ _ _ _ (hvnone _ (Ne.symm hsnLo)) h4
  have hTsome2 : (List.lookup "time" cs).isSome := hTsome
  have hLasome2 : (List.lookup "lat" cs).isSome := by
    have h' : (List.lookup "lat"
        (setXCoordAttrs cs "time" [("long_name", "Time")])).isSome := hLasome
    rwa [setXCoordAttrs, lookup_updFirst_ne _ _ _ _ (by decide)] at h'
  have hLosome2 : (List.lookup "lon" cs).isSome := by
    have h' : (List.lookup "lon" (setXCoordAttrs
        (setXCoordAttrs cs "time" [("long_name", "Time")]) "lat"
        [("long_name", "Latitude"), ("units", "°N")])).isSome := hLosome
    rwa [setXCoordAttrs, setXCoordAttrs, lookup_updFirst_ne _ _ _ _ (by decide),
      lookup_updFirst_ne _ _ _ _ (by decide)] at h'
  obtain ⟨xcT, hxcT⟩ := Option.isSome_iff_exists.mp hTsome2
  obtain ⟨xcLa, hxcLa⟩ := Option.isSome_iff_exists.mp hLasome2
  obtain ⟨xcLo, hxcLo⟩ := Option.isSome_iff_exists.mp hLosome2
  by_cases hlev : "lev" ∈ da.dims
  · rw [if_pos hlev] at h5
    obtain ⟨hLesome, rfl⟩ := setAttrsOn_some_of_vars_none _ _ _ _ (hvnone _ (Ne.symm hsnLe)) h5
    have hLesome2 : (List.lookup "lev" cs).isSome := by
      have h' : (List.lookup "lev" (setXCoordAttrs (setXCoordAttrs
          (setXCoordAttrs cs "time" [("long_name", "Time")]) "lat"
          [("long_name", "Latitude"), ("units", "°N")]) "lon"
          [("long_name", "Longitude"), ("units", "°E")])).isSome := hLesome
      rwa [setXCoordAttrs, setXCoordAttrs, setXCoordAttrs,
        lookup_updFirst_ne _ _ _ _ (by decide), lookup_updFirst_ne _ _ _ _ (by decide),
        lookup_updFirst_ne _ _ _ _ (by decide)] at h'
    obtain ⟨xcLe, hxcLe⟩ := Option.isSome_iff_exists.mp hLesome2
    refine ⟨_, hds, rfl, ?_, ?_, ?_, ?_⟩
    · simp only [setXCoordAttrs]
      rw [lookup_updFirst_ne _ _ _ _ (by decide), lookup_updFirst_ne _ _ _ _ (by decide),
        lookup_updFirst_ne _ _ _ _ (by decide), lookup_updFirst_self, hxcT]
      rfl
    · simp only [setXCoordAttrs]
      rw [lookup_updFirst_ne _ _ _ _ (by decide), lookup_updFirst_ne _ _ _ _ (by decide),
        lookup_updFirst_self, lookup_updFirst_ne _ _ _ _ (by decide), hxcLa]
      rfl
    · simp only [setXCoordAttrs]
      rw [lookup_updFirst_ne _ _ _ _ (by decide), lookup_updFirst_self,
        lookup_updFirst_ne _ _ _ _ (by decide), lookup_updFirst_ne _ _ _ _ (by decide), hxcLo]
      rfl
    · rw [if_pos hlev]
      simp only [setXCoordAttrs]
      rw [lookup_updFirst_self, lookup_updFirst_ne _ _ _ _ (by decide),
        lookup_updFirst_ne _ _ _ _ (by decide), lookup_updFirst_ne _ _ _ _ (by decide), hxcLe]
      rfl
  · rw [if_neg hlev] at h5
    obtain rfl := Option.some.inj h5
    refine ⟨_, hds, rfl, ?_, ?_, ?_, ?_⟩
    · simp only [setXCoordAttrs]
      rw [lookup_updFirst_ne _ _ _ _ (by decide), lookup_updFirst_ne _ _ _ _ (by decide),
        lookup_updFirst_self, hxcT]
      rfl
    · simp only [setXCoordAttrs]
      rw [lookup_updFirst_ne _ _ _ _ (by decide), lookup_updFirst_self,
        lookup_updFirst_ne _ _ _ _ (by decide), hxcLa]
      rfl
    · simp only [setXCoordAttrs]
      rw [lookup_updFirst_self, lookup_updFirst_ne _ _ _ _ (by decide),
        lookup_updFirst_ne _ _ _ _ (by decide), hxcLo]
      rfl
    · rw [if_neg hlev]
      have hnotin : "lev" ∉ cs.map Prod.fst := by
        rw [hkeys]
        exact hlev
      simp only [setXCoordAttrs]
      rw [lookup_updFirst_ne _ _ _ _ (by decide), lookup_updFirst_ne _ _ _ _ (by decide),
        lookup_updFirst_ne _ _ _ _ (by decide), lookup_eq_none_of_not_mem _ _ hnotin]
      rfl

/-- Witness for C7 at the concrete array with a level dimension. -/
theorem create_dataset_attrs_witness :
    ("pr" ∉ (["time", "lat", "lon", "lev"] : List String))
    ∧ (create_dataset exCreate "pr" "Precipitation" "mm" "IMERG" "A. Person" "ap@example.org"
        2026 10 12).isSome
    ∧ ∃ ds, create_dataset exCreate "pr" "Precipitation" "mm" "IMERG" "A. Person" "ap@example.org"
        2026 10 12 = some ds
      ∧ List.lookup "history" ds.attrs
          = some ("Created on " ++ fmtDate 2026 10 12 ++ " by " ++ "A. Person"
              ++ " (" ++ "ap@example.org" ++ ")")
      ∧ (List.lookup "time" ds.coords).map XCoord.attrs = some [("long_name", "Time")]
      ∧ (List.lookup "lat" ds.coords).map XCoord.attrs
          = some [("long_name", "Latitude"), ("units", "°N")]
      ∧ (List.lookup "lon" ds.coords).map XCoord.attrs
          = some [("long_name", "Longitude"), ("units", "°E")]
      ∧ (List.lookup "lev" ds.coords).map XCoord.attrs
          = (if "lev" ∈ exCreate.dims then
              some [("long_name", "Pressure level"), ("units", "hPa")] else none) :=
  ⟨by decide, by decide,
    create_dataset_attrs exCreate "pr" "Precipitation" "mm" "IMERG" "A. Person" "ap@example.org"
      2026 10 12 (by decide) (by decide)⟩

/-! ### Claim C10: create_dataset requires the time, lat and lon dimensions -/

/-- C10: create_dataset unconditionally sets attributes on the time, lat
and lon coordinates, so a call on an array missing one of those dimensions
(with a variable name that does not shadow them) fails with an error; only
the lev dimension is conditionally handled. -/
theorem create_dataset_requires_dims (da : DataArray) (sn ln un so au em : String) (y m d : ℕ)
    (hsn : sn ∉ (["time", "lat", "lon"] : List String))
    (hmiss : "time" ∉ da.dims ∨ "lat" ∉ da.dims ∨ "lon" ∉ da.dims) :
    create_dataset da sn ln un so au em y m d = none := by
  simp only [List.mem_cons, List.not_mem_nil, or_false, not_or] at hsn
  obtain ⟨hsnT, hsnLa, hsnLo⟩ := hsn
  by_contra hne
  obtain ⟨ds, hds⟩ := Option.ne_none_iff_exists'.mp hne
  obtain ⟨cs, ds2, ds3, ds4, ds5, hcs, h2, h3, h4, h5, rfl⟩ :=
    create_dataset_destruct _ _ _ _ _ _ _ _ _ _ _ hds
  have hkeys : cs.map Prod.fst = da.dims := mapM_coordKeys _ _ _ hcs
  have hv1 : (setVarAttrs [(sn, (⟨da.dims, da.data, []⟩ : XVar))] sn
      [("long_name", ln), ("units", un)]).map Prod.fst = [sn] := by
    rw [setVarAttrs, updFirst_keys]
    rfl
  have k2 := setAttrsOn_keys _ _ _ _ h2
  have k3 := setAttrsOn_keys _ _ _ _ h3
  have hmem : ∀ (dsx : XDataset) (nm : String), nm ≠ sn
      → dsx.vars.map Prod.fst = [sn] → dsx.coords.map Prod.fst = da.dims
      → ∀ dsy ats, setAttrsOn dsx nm ats = some dsy → nm ∈ da.dims := by
    intro dsx nm hnm hvx hcx dsy ats hset
    rcases setAttrsOn_some_mem _ _ _ _ hset with hv | hc
    · exfalso
      have := mem_of_lookup_isSome _ _ hv
      rw [hvx, List.mem_singleton] at this
      exact hnm this
    · have := mem_of_lookup_isSome _ _ hc
      rw [hcx] at this
      exact this
  have hT : "time" ∈ da.dims :=
    hmem _ _ (Ne.symm hsnT) hv1 hkeys _ _ h2
  have hLa : "lat" ∈ da.dims :=
    hmem _ _ (Ne.symm hsnLa) (k2.1.trans hv1) (k2.2.1.trans hkeys) _ _ h3
  have hLo : "lon" ∈ da.dims :=
    hmem _ _ (Ne.symm hsnLo) (k3.1.trans (k2.1.trans hv1)) (k3.2.1.trans (k2.2.1.trans hkeys)) _ _ h4
  rcases hmiss with hm | hm | hm
  · exact hm hT
  · exact hm hLa
  · exact hm hLo

/-- Witness for C10 at a concrete array missing the lat dimension. -/
theorem create_dataset_requires_dims_witness :
    ("pr" ∉ (["time", "lat", "lon"] : List String))
    ∧ ("time" ∉ exNoLat.dims ∨ "lat" ∉ exNoLat.dims ∨ "lon" ∉ exNoLat.dims)
    ∧ create_dataset exNoLat "pr" "Precipitation" "mm" "IMERG" "A. Person" "ap@example.org"
        2026 10 12 = none :=
  ⟨by decide, by decide,
    create_dataset_requires_dims exNoLat "pr" "Precipitation" "mm" "IMERG" "A. Person"
      "ap@example.org" 2026 10 12 (by decide) (by decide)⟩

/-! ### Order lemmas for the coordinate-value comparison -/

theorem CVal.le_trans (a b c : CVal) (h1 : CVal.le a b = true) (h2 : CVal.le b c = true) :
    CVal.le a c = true := by
  simp only [CVal.le, Bool.or_eq_true, Bool.and_eq_true, decide_eq_true_eq, beq_iff_eq]
    at h1 h2 ⊢
  rcases h1 with h1 | ⟨h1e, h1q⟩
  · rcases h2 with h2 | ⟨h2e, h2q⟩
    · exact Or.inl (h1.trans h2)
    · exact Or.inl (by omega)
  · rcases h2 with h2 | ⟨h2e, h2q⟩
    · exact Or.inl (by omega)
    · exact Or.inr ⟨h1e.trans h2e, h1q.trans h2q⟩

theorem CVal.le_total (a b : CVal) : (CVal.le a b || CVal.le b a) = true := by
  simp only [CVal.le, Bool.or_eq_true, Bool.and_eq_true, decide_eq_true_eq, beq_iff_eq]
  rcases lt_trichotomy a.rank b.rank with h | h | h
  · exact Or.inl (Or.inl h)
  · rcases le_or_lt a.keyQ b.keyQ with hq | hq
    · exact Or.inl (Or.inr ⟨h, hq⟩)
    · exact Or.inr (Or.inr ⟨h.symm, hq.le⟩)
  · exact Or.inr (Or.inl h)

theorem CVal.le_of_not_le (a b : CVal) (h : CVal.le a b = false) : CVal.le b a = true := by
  have ht := CVal.le_total a b
  rw [h] at ht
  simpa using ht

/-! ### Lemmas for resample_time -/

theorem getIdx_of_lt (idxs : List ℕ) (j : ℕ) (h : j < idxs.length) :
    getIdx idxs j = idxs.getD j 0 := by
  unfold getIdx
  rw [min_eq_left (by omega)]

theorem getD_findIdx_self (l : List CVal) (k : CVal) (hk : k ∈ l) :
    l.getD (l.findIdx (fun v => v == k)) (.i 0) = k := by
  have hlt : l.findIdx (fun v => v == k) < l.length :=
    List.findIdx_lt_length_of_exists ⟨k, hk, by simp⟩
  rw [List.getD_eq_getElem _ _ hlt]
  have := @List.findIdx_getElem CVal (fun v => v == k) l hlt
  simpa using this

theorem resample_time_eq (da : DataArray) (fr : Freq) (c : Coord)
    (hc : List.lookup "time" da.coords = some c) (hd : c.dtype = DType.datetime) :
    resample_time da fr = some
      ({ da with coords := setCoord da.coords "time" ⟨c.dtype, c.vals.map (floorCV fr)⟩ },
        groupbyTimeFirst
          { da with coords := setCoord da.coords "time" ⟨c.dtype, c.vals.map (floorCV fr)⟩ }
          ⟨c.dtype, c.vals.map (floorCV fr)⟩) := by
  unfold resample_time
  rw [hc]
  simp [hd]

/-! ### Claim C9: resample_time mutates its argument -/

/-- C9: after resample_time returns, the caller's input dataset has its
time coordinate overwritten with the floored timestamps, so whenever some
timestamp is not already on the frequency boundary the input is not left
unchanged. -/
theorem resample_time_mutates_input (da : DataArray) (fr : Freq) (c : Coord)
    (hc : List.lookup "time" da.coords = some c) (hd : c.dtype = DType.datetime)
    (hne : c.vals ≠ c.vals.map (floorCV fr)) :
    (resample_time da fr).map (fun p => List.lookup "time" p.1.coords)
        = some (some ⟨c.dtype, c.vals.map (floorCV fr)⟩)
    ∧ (resample_time da fr).map Prod.fst ≠ some da := by
  rw [resample_time_eq da fr c hc hd]
  constructor
  · simp only [Option.map_some']
    rw [show (setCoord da.coords "time" ⟨c.dtype, c.vals.map (floorCV fr)⟩)
        = updFirst (fun _ => (⟨c.dtype, c.vals.map (floorCV fr)⟩ : Coord)) da.coords "time"
      from rfl]
    rw [lookup_updFirst_self, hc]
    rfl
  · simp only [Option.map_some', ne_eq, Option.some.injEq]
    intro hEq
    have hco : setCoord da.coords "time" ⟨c.dtype, c.vals.map (floorCV fr)⟩ = da.coords :=
      congrArg DataArray.coords hEq
    have h2 : List.lookup "time"
        (setCoord da.coords "time" ⟨c.dtype, c.vals.map (floorCV fr)⟩) = some c := by
      rw [hco, hc]
    rw [setCoord, lookup_updFirst_self, hc] at h2
    simp only [Option.map_some', Option.some.injEq] at h2
    have := congrArg Coord.vals h2
    simp only at this
    exact hne this.symm

/-- Witness for C9: the hourly example's time coordinate really is
overwritten when floored to daily frequency. -/
theorem resample_time_mutates_input_witness :
    (List.lookup "time" exResample.coords = some exResampleCoord)
    ∧ exResampleCoord.dtype = DType.datetime
    ∧ exResampleCoord.vals ≠ exResampleCoord.vals.map (floorCV .day)
    ∧ ((resample_time exResample .day).map (fun p => List.lookup "time" p.1.coords)
        = some (some ⟨exResampleCoord.dtype, exResampleCoord.vals.map (floorCV .day)⟩)
      ∧ (resample_time exResample .day).map Prod.fst ≠ some exResample) :=
  ⟨by decide, by decide, by decide,
    resample_time_mutates_input exResample .day exResampleCoord
      (by decide) (by decide) (by decide)⟩

/-! ### Claim C1: resample_time floors, groups, and keeps the first row -/

/-- C1: resample_time floors each time stamp to the frequency boundary and
groups identical floored stamps; the returned dataset is indexed by the
sorted distinct floored stamps, and each group carries the data of the
first original row whose floored stamp equals the group key — a
representative row, never an aggregate of the group. -/
theorem resample_time_keeps_first (da : DataArray) (fr : Freq) (c : Coord)
    (hc : List.lookup "time" da.coords = some c) (hd : c.dtype = DType.datetime) :
    ∃ res, (resample_time da fr).map Prod.snd = some res
      ∧ List.lookup "time" res.coords
          = some ⟨c.dtype, ((c.vals.map (floorCV fr)).insertionSort cvalLE).dedup⟩
      ∧ ∀ j : ℕ, j < (((c.vals.map (floorCV fr)).insertionSort cvalLE).dedup).length →
          ∃ o : ℕ, o < c.vals.length
            ∧ (c.vals.map (floorCV fr)).getD o (.i 0)
                = (((c.vals.map (floorCV fr)).insertionSort cvalLE).dedup).getD j (.i 0)
            ∧ (∀ o2, o2 < o → (c.vals.map (floorCV fr)).getD o2 (.i 0)
                ≠ (((c.vals.map (floorCV fr)).insertionSort cvalLE).dedup).getD j (.i 0))
            ∧ ∀ a : String → ℕ, res.data (Function.update a "time" j)
                = da.data (Function.update a "time" o) := by
  rw [resample_time_eq da fr c hc hd]
  have hmemkeys : ∀ k ∈ ((c.vals.map (floorCV fr)).insertionSort cvalLE).dedup,
      k ∈ c.vals.map (floorCV fr) := by
    intro k hk
    rw [List.mem_dedup] at hk
    exact (List.perm_insertionSort cvalLE (c.vals.map (floorCV fr))).mem_iff.mp hk
  have hidxlen : (firstOccIdxs (c.vals.map (floorCV fr))).length
      = (((c.vals.map (floorCV fr)).insertionSort cvalLE).dedup).length := by
    rw [firstOccIdxs, List.length_map]
  refine ⟨_, rfl, ?_, ?_⟩
  · show List.lookup "time" (setCoord (setCoord da.coords "time" _) "time" _) = _
    rw [setCoord, setCoord, lookup_updFirst_self, lookup_updFirst_self, hc]
    simp only [Option.map_some', Option.some.injEq, Coord.mk.injEq]
    refine ⟨trivial, ?_⟩
    rw [firstOccIdxs, List.map_map]
    have hcong : ∀ k ∈ ((c.vals.map (floorCV fr)).insertionSort cvalLE).dedup,
        ((fun i => (c.vals.map (floorCV fr)).getD i (.i 0))
          ∘ fun k => (c.vals.map (floorCV fr)).findIdx (fun v => v == k)) k = id k := by
      intro k hk
      exact getD_findIdx_self _ k (hmemkeys k hk)
    rw [List.map_congr_left hcong, List.map_id]
  · intro j hj
    have hjlt : j < (firstOccIdxs (c.vals.map (floorCV fr))).length := by
      rw [hidxlen]
      exact hj
    have hkmem : (((c.vals.map (floorCV fr)).insertionSort cvalLE).dedup).getD j (.i 0)
        ∈ ((c.vals.map (floorCV fr)).insertionSort cvalLE).dedup := by
      rw [List.getD_eq_getElem _ _ hj]
      exact List.getElem_mem hj
    have hkts := hmemkeys _ hkmem
    refine ⟨(c.vals.map (floorCV fr)).findIdx
      (fun v => v == (((c.vals.map (floorCV fr)).insertionSort cvalLE).dedup).getD j (.i 0)),
      ?_, ?_, ?_, ?_⟩
    · have := @List.findIdx_lt_length_of_exists CVal (fun v =>
        v == (((c.vals.map (floorCV fr)).insertionSort cvalLE).dedup).getD j (.i 0))
        (c.vals.map (floorCV fr)) ⟨_, hkts, by simp⟩
      rwa [List.length_map] at this
    · exact getD_findIdx_self _ _ hkts
    · intro o2 ho2
      have hflt : (c.vals.map (floorCV fr)).findIdx (fun v =>
          v == (((c.vals.map (floorCV fr)).insertionSort cvalLE).dedup).getD j (.i 0))
          < (c.vals.map (floorCV fr)).length :=
        List.findIdx_lt_length_of_exists ⟨_, hkts, by simp⟩
      have hne := List.not_of_lt_findIdx ho2
      rw [List.getD_eq_getElem _ _ (ho2.trans hflt)]
      simpa using hne
    · intro a
      show da.data (Function.update (Function.update a "time" j) "time"
        (getIdx (firstOccIdxs (c.vals.map (floorCV fr)))
          ((Function.update a "time" j) "time"))) = _
      rw [Function.update_same, getIdx_of_lt _ _ hjlt]
      have hgd : (firstOccIdxs (c.vals.map (floorCV fr))).getD j 0
          = (c.vals.map (floorCV fr)).findIdx (fun v =>
            v == (((c.vals.map (floorCV fr)).insertionSort cvalLE).dedup).getD j (.i 0)) := by
        rw [firstOccIdxs]
        rw [List.getD_eq_getElem _ _ (by rw [List.length_map]; exact hj)]
        rw [List.getElem_map]
        rw [List.getD_eq_getElem _ _ hj]
      rw [hgd, Function.update_idem]

/-- Witness for C1: the hourly stamps 00:00, 00:30, 01:00 floored to daily
frequency give exactly one row, equal to the value at 00:00, not an
average of the three. -/
theorem resample_time_keeps_first_witness :
    (List.lookup "time" exResample.coords = some exResampleCoord)
    ∧ exResampleCoord.dtype = DType.datetime
    ∧ ((resample_time exResample .day).map (fun p => List.lookup "time" p.2.coords)
        = some (some ⟨DType.datetime, [.t ⟨2020, 1, 1, 0, 0⟩]⟩))
    ∧ ((resample_time exResample .day).map (fun p => p.2.data (fun _ => 0)) = some 10)
    ∧ (∃ res, (resample_time exResample .day).map Prod.snd = some res
      ∧ List.lookup "time" res.coords
          = some ⟨exResampleCoord.dtype,
              ((exResampleCoord.vals.map (floorCV .day)).insertionSort cvalLE).dedup⟩
      ∧ ∀ j : ℕ, j < (((exResampleCoord.vals.map (floorCV .day)).insertionSort cvalLE).dedup).length →
          ∃ o : ℕ, o < exResampleCoord.vals.length
            ∧ (exResampleCoord.vals.map (floorCV .day)).getD o (.i 0)
                = (((exResampleCoord.vals.map (floorCV .day)).insertionSort cvalLE).dedup).getD j (.i 0)
            ∧ (∀ o2, o2 < o → (exResampleCoord.vals.map (floorCV .day)).getD o2 (.i 0)
                ≠ (((exResampleCoord.vals.map (floorCV .day)).insertionSort cvalLE).dedup).getD j (.i 0))
            ∧ ∀ a : String → ℕ, res.data (Function.update a "time" j)
                = exResample.data (Function.update a "time" o)) :=
  ⟨by decide, by decide, by rfl, by rfl,
    resample_time_keeps_first exResample .day exResampleCoord (by decide) (by decide)⟩

/-! ### Lemmas for label slicing: the searchsorted segment of a sorted
coordinate is exactly the inclusive-range filter -/

theorem countP_eq_length_takeWhile (p : CVal → Bool) (vs : List CVal)
    (hs : List.Pairwise cvalLE vs)
    (hdc : ∀ a b, cvalLE a b → p b = true → p a = true) :
    vs.countP p = (vs.takeWhile p).length := by
  induction vs with
  | nil => rfl
  | cons x t ih =>
    obtain ⟨hall, ht⟩ := List.pairwise_cons.mp hs
    by_cases hx : p x = true
    · rw [List.countP_cons_of_pos _ _ hx, List.takeWhile_cons_of_pos hx]
      simp [ih ht]
    · rw [List.countP_cons_of_neg _ _ hx, List.takeWhile_cons_of_neg hx]
      rw [List.length_nil, List.countP_eq_zero]
      intro a ha hpa
      exact hx (hdc x a (hall a ha) hpa)

theorem filter_le_eq_takeWhile (hi : CVal) (vs : List CVal) (hs : List.Pairwise cvalLE vs) :
    vs.filter (fun v => CVal.le v hi) = vs.takeWhile (fun v => CVal.le v hi) := by
  induction vs with
  | nil => rfl
  | cons x t ih =>
    obtain ⟨hall, ht⟩ := List.pairwise_cons.mp hs
    by_cases hx : CVal.le x hi = true
    · rw [@List.filter_cons_of_pos _ (fun v => CVal.le v hi) x t hx,
        @List.takeWhile_cons_of_pos _ (fun v => CVal.le v hi) x t hx, ih ht]
    · rw [@List.filter_cons_of_neg _ (fun v => CVal.le v hi) x t (by simpa using hx),
        @List.takeWhile_cons_of_neg _ (fun v => CVal.le v hi) x t (by simpa using hx)]
      rw [List.filter_eq_nil_iff]
      intro a ha hpa
      exact hx (CVal.le_trans x a hi (hall a ha) hpa)

theorem filter_range_eq_takeWhile_dropWhile (lo hi : CVal) (vs : List CVal)
    (hs : List.Pairwise cvalLE vs) :
    vs.filter (fun v => CVal.le lo v && CVal.le v hi)
      = (vs.dropWhile (fun v => !CVal.le lo v)).takeWhile (fun v => CVal.le v hi) := by
  induction vs with
  | nil => rfl
  | cons x t ih =>
    obtain ⟨hall, ht⟩ := List.pairwise_cons.mp hs
    by_cases hx : CVal.le lo x = true
    · rw [@List.dropWhile_cons_of_neg _ (fun v => !CVal.le lo v) x t (by simp [hx])]
      have hallo : ∀ v ∈ x :: t, CVal.le lo v = true := by
        intro v hv
        rcases List.mem_cons.mp hv with rfl | hv
        · exact hx
        · exact CVal.le_trans lo x v hx (hall v hv)
      have hcong : (x :: t).filter (fun v => CVal.le lo v && CVal.le v hi)
          = (x :: t).filter (fun v => CVal.le v hi) := by
        apply List.filter_congr
        intro v hv
        simp [hallo v hv]
      rw [hcong, filter_le_eq_takeWhile hi (x :: t) hs]
    · rw [@List.dropWhile_cons_of_pos _ (fun v => !CVal.le lo v) x t (by simp [hx]),
        @List.filter_cons_of_neg _ (fun v => CVal.le lo v && CVal.le v hi) x t (by simp [hx]),
        ih ht]

theorem drop_length_takeWhile (p : CVal → Bool) (vs : List CVal) :
    vs.drop (vs.takeWhile p).length = vs.dropWhile p := by
  induction vs with
  | nil => rfl
  | cons x t ih =>
    by_cases hx : p x = true
    · rw [List.takeWhile_cons_of_pos hx, List.dropWhile_cons_of_pos hx, List.length_cons,
        List.drop_succ_cons, ih]
    · rw [List.takeWhile_cons_of_neg hx, List.dropWhile_cons_of_neg hx]
      rfl

theorem take_length_takeWhile (p : CVal → Bool) (vs : List CVal) :
    vs.take (vs.takeWhile p).length = vs.takeWhile p := by
  induction vs with
  | nil => rfl
  | cons x t ih =>
    by_cases hx : p x = true
    · rw [List.takeWhile_cons_of_pos hx, List.length_cons, List.take_succ_cons, ih]
    · rw [List.takeWhile_cons_of_neg hx]
      rfl

theorem map_getD_range_segment (vs : List CVal) (s k : ℕ) :
    (((List.range vs.length).drop s).take k).map (fun a => vs.getD a (.i 0))
      = (vs.drop s).take k := by
  apply List.ext_getElem
  · simp
  · intro n h1 h2
    rw [List.getElem_map, List.getElem_take, List.getElem_drop, List.getElem_take,
      List.getElem_drop]
    have hn : s + n < vs.length := by
      simp only [List.length_map, List.length_take, List.length_drop, List.length_range] at h1
      omega
    rw [List.getElem_range]
    exact List.getD_eq_getElem vs (.i 0) hn

theorem sliceSel_segment_eq_filter (lo hi : CVal) (vs : List CVal)
    (hs : List.Pairwise cvalLE vs) :
    (((List.range vs.length).drop (vs.countP (fun v => !CVal.le lo v))).take
        (vs.countP (fun v => CVal.le v hi) - vs.countP (fun v => !CVal.le lo v))).map
      (fun a => vs.getD a (.i 0))
      = vs.filter (fun v => CVal.le lo v && CVal.le v hi) := by
  rw [map_getD_range_segment]
  have hqdc : ∀ a b, cvalLE a b → (!CVal.le lo b) = true → (!CVal.le lo a) = true := by
    intro a b hab hpb
    simp only [Bool.not_eq_true'] at hpb ⊢
    cases hcon : CVal.le lo a with
    | false => rfl
    | true => exact absurd (CVal.le_trans lo a b hcon hab) (by simp [hpb])
  have hstart : vs.countP (fun v => !CVal.le lo v)
      = (vs.takeWhile (fun v => !CVal.le lo v)).length :=
    countP_eq_length_takeWhile _ vs hs hqdc
  by_cases hlh : CVal.le lo hi = true
  · have hp2dc : ∀ a b, cvalLE a b → CVal.le b hi = true → CVal.le a hi = true :=
      fun a b hab hpb => CVal.le_trans a b hi hab hpb
    have hsubsorted : List.Pairwise cvalLE (vs.dropWhile (fun v => !CVal.le lo v)) :=
      List.Pairwise.sublist (List.dropWhile_sublist _) hs
    have hsplit : vs.countP (fun v => CVal.le v hi)
        = (vs.takeWhile (fun v => !CVal.le lo v)).length
          + (vs.dropWhile (fun v => !CVal.le lo v)).countP (fun v => CVal.le v hi) := by
      conv_lhs => rw [← List.takeWhile_append_dropWhile (fun v => !CVal.le lo v) vs]
      rw [List.countP_append]
      congr 1
      rw [List.countP_eq_length]
      intro a ha
      have hqa := List.mem_takeWhile_imp ha
      simp only [Bool.not_eq_true'] at hqa
      exact CVal.le_trans a lo hi (CVal.le_of_not_le lo a hqa) hlh
    have hstop2 : (vs.dropWhile (fun v => !CVal.le lo v)).countP (fun v => CVal.le v hi)
        = ((vs.dropWhile (fun v => !CVal.le lo v)).takeWhile (fun v => CVal.le v hi)).length :=
      countP_eq_length_takeWhile _ _ hsubsorted hp2dc
    rw [hstart, drop_length_takeWhile]
    have harith : vs.countP (fun v => CVal.le v hi)
        - (vs.takeWhile (fun v => !CVal.le lo v)).length
        = ((vs.dropWhile (fun v => !CVal.le lo v)).takeWhile (fun v => CVal.le v hi)).length := by
      omega
    rw [harith, take_length_takeWhile,
      filter_range_eq_takeWhile_dropWhile lo hi vs hs]
  · have hmono : vs.countP (fun v => CVal.le v hi) ≤ vs.countP (fun v => !CVal.le lo v) := by
      apply List.countP_mono_left
      intro v _ hple
      simp only [Bool.not_eq_true']
      cases hcon : CVal.le lo v with
      | false => rfl
      | true => exact absurd (CVal.le_trans lo v hi hcon hple) (by simp [hlh])
    rw [Nat.sub_eq_zero_of_le hmono, List.take_zero]
    rw [eq_comm, List.filter_eq_nil_iff]
    intro a _ hpa
    simp only [Bool.and_eq_true] at hpa
    exact hlh (CVal.le_trans lo a hi hpa.1 hpa.2)

theorem map_getD_filter_range (p : CVal → Bool) (vs : List CVal) :
    ((List.range vs.length).filter (fun a => p (vs.getD a (.i 0)))).map
      (fun a => vs.getD a (.i 0)) = vs.filter p := by
  induction vs with
  | nil => rfl
  | cons x t ih =>
    rw [List.length_cons, List.range_succ_eq_map]
    have e1 : ((fun a => (x :: t).getD a (CVal.i 0)) ∘ Nat.succ)
        = fun a => t.getD a (CVal.i 0) := by
      funext a
      simp [List.getD_cons_succ]
    have e2 : ((fun a => p ((x :: t).getD a (CVal.i 0))) ∘ Nat.succ)
        = fun a => p (t.getD a (CVal.i 0)) := by
      funext a
      simp [List.getD_cons_succ]
    by_cases hx : p x = true
    · rw [@List.filter_cons_of_pos _ (fun a => p ((x :: t).getD a (CVal.i 0))) 0
        (List.map Nat.succ (List.range t.length)) (by simpa using hx)]
      rw [List.map_cons, @List.filter_cons_of_pos _ p x t hx, List.getD_cons_zero]
      congr 1
      rw [List.filter_map, List.map_map, e1, e2, ih]
    · rw [@List.filter_cons_of_neg _ (fun a => p ((x :: t).getD a (CVal.i 0))) 0
        (List.map Nat.succ (List.range t.length)) (by simpa using hx)]
      rw [@List.filter_cons_of_neg _ p x t hx]
      rw [List.filter_map, List.map_map, e1, e2, ih]

theorem sliceSel_coord (da : DataArray) (d : String) (lo hi : CVal) (c : Coord)
    (hc : List.lookup d da.coords = some c) (hs : sortedCV c.vals) :
    ∃ r, sliceSel da d lo hi = some r
      ∧ List.lookup d r.coords
          = some ⟨c.dtype, c.vals.filter (fun v => CVal.le lo v && CVal.le v hi)⟩
      ∧ (∀ d2, d2 ≠ d → List.lookup d2 r.coords = List.lookup d2 da.coords)
      ∧ r.dims = da.dims := by
  haveI : IsTrans CVal cvalLE := ⟨fun a b c2 => CVal.le_trans a b c2⟩
  have hpw : List.Pairwise cvalLE c.vals := List.chain'_iff_pairwise.mp hs
  have he : sliceSel da d lo hi = some (reindexDim da d c
      (((List.range c.vals.length).drop (c.vals.countP (fun v => !CVal.le lo v))).take
        (c.vals.countP (fun v => CVal.le v hi) - c.vals.countP (fun v => !CVal.le lo v)))) := by
    unfold sliceSel
    rw [hc]
    simp only [Option.bind_eq_bind, Option.some_bind]
    rw [if_pos hs]
    rfl
  refine ⟨_, he, ?_, ?_, rfl⟩
  · show List.lookup d (setCoord da.coords d _) = _
    rw [setCoord, lookup_updFirst_self, hc]
    simp only [Option.map_some', Option.some.injEq, Coord.mk.injEq]
    refine ⟨by trivial, ?_⟩
    exact sliceSel_segment_eq_filter lo hi c.vals hpw
  · intro d2 hd2
    show List.lookup d2 (setCoord da.coords d _) = _
    rw [setCoord, lookup_updFirst_ne _ _ _ _ hd2]

theorem timeSel_coord (da : DataArray) (years months : List ℕ) (c : Coord)
    (hc : List.lookup "time" da.coords = some c)
    (hd : c.dtype = DType.datetime ∨ c.dtype = DType.obj) :
    ∃ r, timeSel da years months = some r
      ∧ List.lookup "time" r.coords = some ⟨c.dtype, c.vals.filter (ymIn years months)⟩
      ∧ (∀ d2, d2 ≠ "time" → List.lookup d2 r.coords = List.lookup d2 da.coords)
      ∧ r.dims = da.dims := by
  have he : timeSel da years months = some (reindexDim da "time" c
      ((List.range c.vals.length).filter (fun a => ymIn years months (c.vals.getD a (.i 0))))) := by
    unfold timeSel
    rw [hc]
    simp only [Option.bind_eq_bind, Option.some_bind]
    rw [if_pos hd]
    rfl
  refine ⟨_, he, ?_, ?_, rfl⟩
  · show List.lookup "time" (setCoord da.coords "time" _) = _
    rw [setCoord, lookup_updFirst_self, hc]
    simp only [Option.map_some', Option.some.injEq, Coord.mk.injEq]
    refine ⟨by trivial, ?_⟩
    exact map_getD_filter_range (ymIn years months) c.vals
  · intro d2 hd2
    show List.lookup d2 (setCoord da.coords "time" _) = _
    rw [setCoord, lookup_updFirst_ne _ _ _ _ hd2]

/-! ### Claim C3: subset_dims — spatial slice, then temporal filter, then
optional level slice -/

/-- C3: subset_dims applies the spatial slice first, then the temporal
filter, then the optional level slice.  Label slicing on an ascending
coordinate keeps exactly the values inside the inclusive range, and the
temporal filter keeps exactly the timestamps whose year lies in the given
years and whose month lies in the given months; coordinates of the other
dimensions are untouched. -/
theorem subset_dims_spec (da : DataArray) (years months : List ℕ)
    (latlo lathi lonlo lonhi : CVal) (levr : Option (CVal × CVal))
    (cLat cLon cT : Coord)
    (hLat : List.lookup "lat" da.coords = some cLat) (hsLat : sortedCV cLat.vals)
    (hLon : List.lookup "lon" da.coords = some cLon) (hsLon : sortedCV cLon.vals)
    (hT : List.lookup "time" da.coords = some cT)
    (hdT : cT.dtype = DType.datetime ∨ cT.dtype = DType.obj)
    (hlevok : ∀ lr, levr = some lr → "lev" ∈ da.dims →
      ∃ cLev, List.lookup "lev" da.coords = some cLev ∧ sortedCV cLev.vals) :
    ∃ r, subset_dims da years months (latlo, lathi) (lonlo, lonhi) levr = some r
      ∧ List.lookup "lat" r.coords
          = some ⟨cLat.dtype, cLat.vals.filter (fun v => CVal.le latlo v && CVal.le v lathi)⟩
      ∧ List.lookup "lon" r.coords
          = some ⟨cLon.dtype, cLon.vals.filter (fun v => CVal.le lonlo v && CVal.le v lonhi)⟩
      ∧ List.lookup "time" r.coords = some ⟨cT.dtype, cT.vals.filter (ymIn years months)⟩
      ∧ r.dims = da.dims
      ∧ (levr = none → List.lookup "lev" r.coords = List.lookup "lev" da.coords)
      ∧ (∀ lr, levr = some lr → "lev" ∈ da.dims → ∀ cLev,
          List.lookup "lev" da.coords = some cLev →
          List.lookup "lev" r.coords
            = some ⟨cLev.dtype, cLev.vals.filter (fun v => CVal.le lr.1 v && CVal.le v lr.2)⟩)
      ∧ (∀ lr, levr = some lr → "lev" ∉ da.dims →
          List.lookup "lev" r.coords = List.lookup "lev" da.coords) := by
  obtain ⟨r1, e1, hc1, ho1, hd1⟩ := sliceSel_coord da "lat" latlo lathi cLat hLat hsLat
  obtain ⟨r2, e2, hc2, ho2, hd2⟩ := sliceSel_coord r1 "lon" lonlo lonhi cLon
    (by rw [ho1 "lon" (by decide)]; exact hLon) hsLon
  obtain ⟨r3, e3, hc3, ho3, hd3⟩ := timeSel_coord r2 years months cT
    (by rw [ho2 "time" (by decide), ho1 "time" (by decide)]; exact hT) hdT
  rcases levr with _ | lr
  · refine ⟨r3, ?_, ?_, ?_, hc3, by rw [hd3, hd2, hd1], fun _ => ?_, ?_, ?_⟩
    · unfold subset_dims
      rw [e1]
      simp only [Option.bind_eq_bind, Option.some_bind]
      rw [e2]
      simp only [Option.some_bind]
      rw [e3]
      simp only [Option.some_bind]
      rfl
    · rw [ho3 "lat" (by decide), ho2 "lat" (by decide), hc1]
    · rw [ho3 "lon" (by decide), hc2]
    · rw [ho3 "lev" (by decide), ho2 "lev" (by decide), ho1 "lev" (by decide)]
    · intro lr h
      exact absurd h (by simp)
    · intro lr h
      exact absurd h (by simp)
  · by_cases hmem : "lev" ∈ da.dims
    · obtain ⟨cLev, hLev, hsLev⟩ := hlevok lr rfl hmem
      obtain ⟨r4, e4, hc4, ho4, hd4⟩ := sliceSel_coord r3 "lev" lr.1 lr.2 cLev
        (by rw [ho3 "lev" (by decide), ho2 "lev" (by decide), ho1 "lev" (by decide)]; exact hLev)
        hsLev
      refine ⟨r4, ?_, ?_, ?_, ?_, by rw [hd4, hd3, hd2, hd1], by intro h; exact absurd h (by simp),
        ?_, ?_⟩
      · unfold subset_dims
        rw [e1]
        simp only [Option.bind_eq_bind, Option.some_bind]
        rw [e2]
        simp only [Option.some_bind]
        rw [e3]
        simp only [Option.some_bind]
        have hcond : ("lev" ∈ r3.dims) = ("lev" ∈ da.dims) := by
          rw [hd3, hd2, hd1]
        simp only [hcond]
        rw [if_pos hmem]
        exact e4
      · rw [ho4 "lat" (by decide), ho3 "lat" (by decide), ho2 "lat" (by decide), hc1]
      · rw [ho4 "lon" (by decide), ho3 "lon" (by decide), hc2]
      · rw [ho4 "time" (by decide), hc3]
      · intro lr2 hlr2 _ cLev2 hLev2
        obtain rfl := Option.some.inj hlr2
        rw [hLev] at hLev2
        obtain rfl := Option.some.inj hLev2
        exact hc4
      · intro lr2 _ hnot
        exact absurd hmem hnot
    · refine ⟨r3, ?_, ?_, ?_, hc3, by rw [hd3, hd2, hd1], by intro h; exact absurd h (by simp),
        ?_, ?_⟩
      · unfold subset_dims
        rw [e1]
        simp only [Option.bind_eq_bind, Option.some_bind]
        rw [e2]
        simp only [Option.some_bind]
        rw [e3]
        simp only [Option.some_bind]
        have hcond : ("lev" ∈ r3.dims) = ("lev" ∈ da.dims) := by
          rw [hd3, hd2, hd1]
        simp only [hcond]
        rw [if_neg hmem]
        rfl
      · rw [ho3 "lat" (by decide), ho2 "lat" (by decide), hc1]
      · rw [ho3 "lon" (by decide), hc2]
      · intro lr2 _ hmem2
        exact absurd hmem2 hmem
      · intro lr2 _ _
        rw [ho3 "lev" (by decide), ho2 "lev" (by decide), ho1 "lev" (by decide)]

/-- Witness for C3: lat values 0, 10, 20, 30 sliced to the inclusive range
5..25 give exactly 10, 20; the 2020-01..2021-12 monthly axis filtered to
years 2020 and months June, July gives exactly the 2020-06 and 2020-07
stamps. -/
theorem subset_dims_spec_witness :
    (List.lookup "lat" exSubset.coords = some exSubLat) ∧ sortedCV exSubLat.vals
    ∧ (List.lookup "lon" exSubset.coords = some exSubLon) ∧ sortedCV exSubLon.vals
    ∧ (List.lookup "time" exSubset.coords = some exSubTime)
    ∧ (exSubTime.dtype = DType.datetime ∨ exSubTime.dtype = DType.obj)
    ∧ ((subset_dims exSubset [2020] [6, 7] (.f 5, .f 25) (.f 100, .f 200) none).map
        (fun r => List.lookup "lat" r.coords) = some (some ⟨DType.float, [.f 10, .f 20]⟩))
    ∧ ((subset_dims exSubset [2020] [6, 7] (.f 5, .f 25) (.f 100, .f 200) none).map
        (fun r => List.lookup "time" r.coords)
        = some (some ⟨DType.datetime, [.t ⟨2020, 6, 1, 0, 0⟩, .t ⟨2020, 7, 1, 0, 0⟩]⟩))
    ∧ (∃ r, subset_dims exSubset [2020] [6, 7] (.f 5, .f 25) (.f 100, .f 200) none = some r
      ∧ List.lookup "lat" r.coords
          = some ⟨exSubLat.dtype, exSubLat.vals.filter (fun v => CVal.le (.f 5) v && CVal.le v (.f 25))⟩
      ∧ List.lookup "lon" r.coords
          = some ⟨exSubLon.dtype, exSubLon.vals.filter (fun v => CVal.le (.f 100) v && CVal.le v (.f 200))⟩
      ∧ List.lookup "time" r.coords = some ⟨exSubTime.dtype, exSubTime.vals.filter (ymIn [2020] [6, 7])⟩
      ∧ r.dims = exSubset.dims
      ∧ ((none : Option (CVal × CVal)) = none →
          List.lookup "lev" r.coords = List.lookup "lev" exSubset.coords)
      ∧ (∀ lr, (none : Option (CVal × CVal)) = some lr → "lev" ∈ exSubset.dims → ∀ cLev,
          List.lookup "lev" exSubset.coords = some cLev →
          List.lookup "lev" r.coords
            = some ⟨cLev.dtype, cLev.vals.filter (fun v => CVal.le lr.1 v && CVal.le v lr.2)⟩)
      ∧ (∀ lr, (none : Option (CVal × CVal)) = some lr → "lev" ∉ exSubset.dims →
          List.lookup "lev" r.coords = List.lookup "lev" exSubset.coords)) :=
  ⟨by decide, by decide, by decide, by decide, by decide, by decide, by rfl, by rfl,
    subset_dims_spec exSubset [2020] [6, 7] (.f 5) (.f 25) (.f 100) (.f 200) none
      exSubLat exSubLon exSubTime (by decide) (by decide) (by decide) (by decide)
      (by decide) (by decide) (fun lr h => nomatch h)⟩

/-! ### Lemmas for standardize_dims -/

theorem toDatetimeIndex_dtype (c c2 : Coord) (h : c.toDatetimeIndex = some c2) :
    c2.dtype = DType.datetime := by
  unfold Coord.toDatetimeIndex at h
  by_cases hcond : c.dtype = DType.obj
    ∧ c.vals.all (fun v => match v with | .c _ => true | _ => false) = true
  · rw [if_pos hcond] at h
    obtain rfl := Option.some.inj h
    rfl
  · rw [if_neg hcond] at h
    exact absurd h (by simp)

theorem astypeFloat_dtype (c c2 : Coord) (h : c.astypeFloat = some c2) :
    c2.dtype = DType.float := by
  unfold Coord.astypeFloat at h
  cases hdt : c.dtype <;> rw [hdt] at h
  · obtain rfl := Option.some.inj h
    rfl
  · obtain rfl := Option.some.inj h
    exact hdt
  · obtain rfl := Option.some.inj h
    rfl
  · exact absurd h (by simp)

theorem astypeFloat_of_float (c : Coord) (h : c.dtype = DType.float) :
    c.astypeFloat = some c := by
  unfold Coord.astypeFloat
  rw [h]

theorem reindexDim_clamped (da : DataArray) (d : String) (c : Coord) (idxs : List ℕ) :
    ClampedAt (reindexDim da d c idxs).data d idxs.length := by
  intro a
  show da.data (Function.update a d (getIdx idxs (a d)))
    = da.data (Function.update (Function.update a d (min (a d) (idxs.length - 1))) d
        (getIdx idxs ((Function.update a d (min (a d) (idxs.length - 1))) d)))
  rw [Function.update_same, Function.update_idem]
  have hidx : getIdx idxs (min (a d) (idxs.length - 1)) = getIdx idxs (a d) := by
    unfold getIdx
    congr 1
    omega
  rw [hidx]

theorem reindexDim_clamped_other (da : DataArray) (d d2 : String) (c : Coord) (idxs : List ℕ)
    (hne : d2 ≠ d) (n : ℕ) (h : ClampedAt da.data d2 n) :
    ClampedAt (reindexDim da d c idxs).data d2 n := by
  intro a
  show da.data (Function.update a d (getIdx idxs (a d)))
    = da.data (Function.update (Function.update a d2 (min (a d2) (n - 1))) d
        (getIdx idxs ((Function.update a d2 (min (a d2) (n - 1))) d)))
  rw [Function.update_noteq (Ne.symm hne), Function.update_comm hne]
  have h2 := h (Function.update a d (getIdx idxs (a d)))
  rw [Function.update_noteq hne] at h2
  exact h2

theorem argsortCV_map_sorted (vs : List CVal) :
    sortedCV ((argsortCV vs).map (fun a => vs.getD a (.i 0))) := by
  haveI : IsTrans ℕ (idxLE vs) := ⟨fun a b c h1 h2 => CVal.le_trans _ _ _ h1 h2⟩
  haveI : IsTotal ℕ (idxLE vs) := ⟨fun a b => by
    have ht := CVal.le_total (vs.getD a (.i 0)) (vs.getD b (.i 0))
    rcases (Bool.or_eq_true _ _).mp ht with h | h
    · exact Or.inl h
    · exact Or.inr h⟩
  have hsorted : List.Pairwise (idxLE vs) ((List.range vs.length).insertionSort (idxLE vs)) :=
    List.sorted_insertionSort (idxLE vs) (List.range vs.length)
  unfold sortedCV
  apply List.Pairwise.chain'
  rw [List.pairwise_map]
  exact hsorted

theorem argsortCV_sorted_eq_range (vs : List CVal) (hs : sortedCV vs) :
    argsortCV vs = List.range vs.length := by
  unfold argsortCV
  apply List.Sorted.insertionSort_eq
  haveI : IsTrans CVal cvalLE := ⟨fun a b c => CVal.le_trans a b c⟩
  have hpw := List.chain'_iff_pairwise.mp hs
  rw [List.pairwise_iff_getElem] at hpw
  rw [List.Sorted, List.pairwise_iff_getElem]
  intro i j hi hj hij
  rw [List.length_range] at hi hj
  have hval := hpw i j hi hj hij
  show idxLE vs (List.range vs.length)[i] (List.range vs.length)[j]
  rw [List.getElem_range, List.getElem_range]
  unfold idxLE cvalLE
  rw [List.getD_eq_getElem _ _ hi, List.getD_eq_getElem _ _ hj]
  exact hval

theorem reindexDim_range_eq_self (da : DataArray) (d : String) (c : Coord)
    (hc : List.lookup d da.coords = some c)
    (hcl : ClampedAt da.data d c.vals.length) :
    reindexDim da d c (List.range c.vals.length) = da := by
  have hvals : (List.range c.vals.length).map (fun a => c.vals.getD a (.i 0)) = c.vals := by
    apply List.ext_getElem
    · simp
    · intro n h1 h2
      rw [List.getElem_map, List.getElem_range]
      exact List.getD_eq_getElem c.vals (.i 0) h2
  have hgetIdx : ∀ x : ℕ, getIdx (List.range c.vals.length) x = min x (c.vals.length - 1) := by
    intro x
    unfold getIdx
    rw [List.length_range]
    rcases Nat.eq_zero_or_pos c.vals.length with h0 | hpos
    · rw [h0]
      simp
    · rw [List.getD_eq_getElem _ _ (by rw [List.length_range]; omega), List.getElem_range]
  have hcoords : setCoord da.coords d
      ⟨c.dtype, (List.range c.vals.length).map (fun a => c.vals.getD a (.i 0))⟩ = da.coords := by
    rw [hvals, setCoord]
    exact updFirst_eq_self _ _ _ c hc (by cases c; rfl)
  have hdata : (fun a => da.data (Function.update a d (getIdx (List.range c.vals.length) (a d))))
      = da.data := by
    funext a
    rw [hgetIdx]
    exact (hcl a).symm
  show DataArray.mk da.dims (setCoord da.coords d
      ⟨c.dtype, (List.range c.vals.length).map (fun a => c.vals.getD a (.i 0))⟩)
    (fun a => da.data (Function.update a d (getIdx (List.range c.vals.length) (a d)))) = da
  rw [hcoords, hdata]

theorem sortby1_id (da : DataArray) (d : String) (c : Coord)
    (hc : List.lookup d da.coords = some c) (hs : sortedCV c.vals)
    (hcl : ClampedAt da.data d c.vals.length) :
    sortby1 da d = some da := by
  unfold sortby1
  rw [hc]
  simp only [Option.bind_eq_bind, Option.some_bind]
  rw [argsortCV_sorted_eq_range c.vals hs, reindexDim_range_eq_self da d c hc hcl]
  rfl

theorem fixCoord_id_time (da : DataArray) (c : Coord)
    (hc : List.lookup "time" da.coords = some c) (hd : c.dtype = DType.datetime) :
    fixCoord da "time" = some da := by
  unfold fixCoord
  rw [hc]
  simp [hd]

theorem fixCoord_id_float (da : DataArray) (d : String) (c : Coord) (hdim : d ≠ "time")
    (hc : List.lookup d da.coords = some c) (hd : c.dtype = DType.float) :
    fixCoord da d = some da := by
  unfold fixCoord
  rw [hc]
  simp only [Option.bind_eq_bind, Option.some_bind, if_neg hdim]
  rw [astypeFloat_of_float c hd]
  simp only [Option.some_bind]
  rw [setCoord, updFirst_eq_self _ _ _ c hc rfl]
  rfl

theorem transposeTo_some (da db : DataArray) (dims : List String)
    (h : transposeTo da dims = some db) :
    db.dims = dims ∧ db.coords = da.coords ∧ db.data = da.data := by
  unfold transposeTo at h
  by_cases hp : da.dims.isPerm dims = true
  · rw [if_pos hp] at h
    obtain rfl := Option.some.inj h
    exact ⟨rfl, rfl, rfl⟩
  · rw [if_neg hp] at h
    exact absurd h (by simp)

theorem transposeTo_self (da : DataArray) : transposeTo da da.dims = some da := by
  unfold transposeTo
  rw [if_pos (List.isPerm_iff.mpr (List.Perm.refl _))]

theorem fixCoord_some (da db : DataArray) (dim : String) (h : fixCoord da dim = some db) :
    db.dims = da.dims ∧ db.data = da.data
    ∧ (∀ d2, d2 ≠ dim → List.lookup d2 db.coords = List.lookup d2 da.coords)
    ∧ ∃ c, List.lookup dim db.coords = some c
        ∧ (dim = "time" → c.dtype = DType.datetime)
        ∧ (dim ≠ "time" → c.dtype = DType.float) := by
  unfold fixCoord at h
  cases hc : List.lookup dim da.coords with
  | none =>
    rw [hc] at h
    exact absurd h (by simp)
  | some c0 =>
    rw [hc] at h
    simp only [Option.bind_eq_bind, Option.some_bind] at h
    by_cases hdim : dim = "time"
    · rw [if_pos hdim] at h
      by_cases hdt : c0.dtype ≠ DType.datetime
      · rw [if_pos hdt] at h
        cases hdti : c0.toDatetimeIndex with
        | none =>
          rw [hdti] at h
          exact absurd h (by simp)
        | some c2 =>
          rw [hdti] at h
          simp only [Option.some_bind] at h
          obtain rfl := Option.some.inj h
          refine ⟨rfl, rfl, ?_, c2, ?_, ?_, ?_⟩
          · intro d2 hd2
            show List.lookup d2 (setCoord da.coords dim c2) = _
            rw [setCoord, lookup_updFirst_ne _ _ _ _ hd2]
          · show List.lookup dim (setCoord da.coords dim c2) = _
            rw [setCoord, lookup_updFirst_self, hc]
            rfl
          · intro _
            exact toDatetimeIndex_dtype c0 c2 hdti
          · intro hne
            exact absurd hdim hne
      · rw [if_neg hdt] at h
        obtain rfl := Option.some.inj h
        push_neg at hdt
        exact ⟨rfl, rfl, fun _ _ => rfl, c0, hc, fun _ => hdt, fun hne => absurd hdim hne⟩
    · rw [if_neg hdim] at h
      cases haf : c0.astypeFloat with
      | none =>
        rw [haf] at h
        exact absurd h (by simp)
      | some c2 =>
        rw [haf] at h
        simp only [Option.some_bind] at h
        obtain rfl := Option.some.inj h
        refine ⟨rfl, rfl, ?_, c2, ?_, ?_, ?_⟩
        · intro d2 hd2
          show List.lookup d2 (setCoord da.coords dim c2) = _
          rw [setCoord, lookup_updFirst_ne _ _ _ _ hd2]
        · show List.lookup dim (setCoord da.coords dim c2) = _
          rw [setCoord, lookup_updFirst_self, hc]
          rfl
        · intro hT
          exact absurd hT hdim
        · intro _
          exact astypeFloat_dtype c0 c2 haf

theorem sortby1_some (da db : DataArray) (d : String) (h : sortby1 da d = some db) :
    db.dims = da.dims
    ∧ (∀ d2, d2 ≠ d → List.lookup d2 db.coords = List.lookup d2 da.coords)
    ∧ (∃ c0 c, List.lookup d da.coords = some c0 ∧ List.lookup d db.coords = some c
        ∧ c.dtype = c0.dtype ∧ sortedCV c.vals ∧ ClampedAt db.data d c.vals.length)
    ∧ ∀ d2 n, d2 ≠ d → ClampedAt da.data d2 n → ClampedAt db.data d2 n := by
  unfold sortby1 at h
  cases hc : List.lookup d da.coords with
  | none =>
    rw [hc] at h
    exact absurd h (by simp)
  | some c0 =>
    rw [hc] at h
    simp only [Option.bind_eq_bind, Option.some_bind] at h
    obtain rfl := Option.some.inj h
    refine ⟨rfl, ?_, ?_, ?_⟩
    · intro d2 hd2
      show List.lookup d2 (setCoord da.coords d _) = _
      rw [setCoord, lookup_updFirst_ne _ _ _ _ hd2]
    · refine ⟨c0, Coord.mk c0.dtype ((argsortCV c0.vals).map (fun a => c0.vals.getD a (.i 0))),
        rfl, ?_, rfl, argsortCV_map_sorted c0.vals, ?_⟩
      · show List.lookup d (setCoord da.coords d _) = _
        rw [setCoord, lookup_updFirst_self, hc]
        rfl
      · show ClampedAt (reindexDim da d c0 (argsortCV c0.vals)).data d
          ((argsortCV c0.vals).map (fun a => c0.vals.getD a (.i 0))).length
        rw [List.length_map]
        exact reindexDim_clamped da d c0 (argsortCV c0.vals)
    · intro d2 n hd2 hcl
      exact reindexDim_clamped_other da d d2 c0 (argsortCV c0.vals) hd2 n hcl

theorem foldlM_id (f : DataArray → String → Option DataArray) (dims : List String)
    (da : DataArray) (h : ∀ d ∈ dims, f da d = some da) :
    dims.foldlM f da = some da := by
  induction dims with
  | nil => rfl
  | cons x xs ih =>
    rw [List.foldlM_cons, h x (by simp)]
    simp only [Option.bind_eq_bind, Option.some_bind]
    exact ih (fun d hd => h d (by simp [hd]))

theorem foldlM_fixCoord_facts (dims : List String) (da db : DataArray)
    (hnd : dims.Nodup) (h : dims.foldlM fixCoord da = some db) :
    db.dims = da.dims ∧ db.data = da.data
    ∧ (∀ d2, d2 ∉ dims → List.lookup d2 db.coords = List.lookup d2 da.coords)
    ∧ ∀ d ∈ dims, ∃ c, List.lookup d db.coords = some c
        ∧ (d = "time" → c.dtype = DType.datetime)
        ∧ (d ≠ "time" → c.dtype = DType.float) := by
  induction dims generalizing da with
  | nil =>
    simp only [List.foldlM_nil] at h
    obtain rfl := Option.some.inj h
    exact ⟨rfl, rfl, fun _ _ => rfl, by simp⟩
  | cons x xs ih =>
    rw [List.foldlM_cons] at h
    cases hfx : fixCoord da x with
    | none =>
      rw [hfx] at h
      simp at h
    | some mid =>
      rw [hfx] at h
      simp only [Option.bind_eq_bind, Option.some_bind] at h
      obtain ⟨hnx, hndxs⟩ := List.nodup_cons.mp hnd
      obtain ⟨hdims1, hdata1, hoth1, c1, hc1, hdt1, hdf1⟩ := fixCoord_some da mid x hfx
      obtain ⟨hdims2, hdata2, hoth2, hmem2⟩ := ih mid hndxs h
      refine ⟨hdims2.trans hdims1, hdata2.trans hdata1, ?_, ?_⟩
      · intro d2 hd2
        rw [hoth2 d2 (fun hh => hd2 (by simp [hh])),
          hoth1 d2 (fun hh => hd2 (by simp [hh]))]
      · intro d hd
        rcases List.mem_cons.mp hd with rfl | hdxs
        · exact ⟨c1, by rw [hoth2 d hnx]; exact hc1, hdt1, hdf1⟩
        · exact hmem2 d hdxs

theorem foldlM_sortby_facts (dims : List String) (da db : DataArray)
    (hnd : dims.Nodup) (h : sortbyDims da dims = some db) :
    db.dims = da.dims
    ∧ (∀ d2, d2 ∉ dims → List.lookup d2 db.coords = List.lookup d2 da.coords)
    ∧ (∀ d2 n, d2 ∉ dims → ClampedAt da.data d2 n → ClampedAt db.data d2 n)
    ∧ ∀ d ∈ dims, ∃ c0 c, List.lookup d da.coords = some c0
        ∧ List.lookup d db.coords = some c ∧ c.dtype = c0.dtype
        ∧ sortedCV c.vals ∧ ClampedAt db.data d c.vals.length := by
  induction dims generalizing da with
  | nil =>
    simp only [sortbyDims, List.foldlM_nil] at h
    obtain rfl := Option.some.inj h
    exact ⟨rfl, fun _ _ => rfl, fun _ _ _ hcl => hcl, by simp⟩
  | cons x xs ih =>
    rw [sortbyDims, List.foldlM_cons] at h
    cases hfx : sortby1 da x with
    | none =>
      rw [hfx] at h
      simp at h
    | some mid =>
      rw [hfx] at h
      simp only [Option.bind_eq_bind, Option.some_bind] at h
      obtain ⟨hnx, hndxs⟩ := List.nodup_cons.mp hnd
      obtain ⟨hdims1, hoth1, ⟨c0x, cx, hc0x, hcx, hdtx, hsortx, hclx⟩, hprop1⟩ :=
        sortby1_some da mid x hfx
      obtain ⟨hdims2, hoth2, hprop2, hmem2⟩ := ih mid hndxs h
      refine ⟨hdims2.trans hdims1, ?_, ?_, ?_⟩
      · intro d2 hd2
        rw [hoth2 d2 (fun hh => hd2 (by simp [hh])),
          hoth1 d2 (fun hh => hd2 (by simp [hh]))]
      · intro d2 n hd2 hcl
        exact hprop2 d2 n (fun hh => hd2 (by simp [hh]))
          (hprop1 d2 n (fun hh => hd2 (by simp [hh])) hcl)
      · intro d hd
        rcases List.mem_cons.mp hd with rfl | hdxs
        · exact ⟨c0x, cx, hc0x, by rw [hoth2 d hnx]; exact hcx, hdtx, hsortx,
            hprop2 d cx.vals.length hnx hclx⟩
        · obtain ⟨c0, c, hc0, hcd, hdt, hsort, hcl⟩ := hmem2 d hdxs
          refine ⟨c0, c, ?_, hcd, hdt, hsort, hcl⟩
          rw [← hoth1 d (fun hh => hnx (hh ▸ hdxs))]
          exact hc0

theorem canonicalDims_nodup (da : DataArray) : (canonicalDims da).Nodup := by
  unfold canonicalDims
  split_ifs <;> decide

theorem standardize_facts (da r : DataArray) (h : standardize_dims da = some r) :
    r.dims = canonicalDims da
    ∧ canonicalDims r = canonicalDims da
    ∧ ∀ d ∈ canonicalDims da, ∃ c, List.lookup d r.coords = some c
        ∧ sortedCV c.vals
        ∧ (d = "time" → c.dtype = DType.datetime)
        ∧ (d ≠ "time" → c.dtype = DType.float)
        ∧ ClampedAt r.data d c.vals.length := by
  unfold standardize_dims at h
  simp only [Option.bind_eq_bind, Option.bind_eq_some] at h
  obtain ⟨da2, h2, da3, h3, h4⟩ := h
  have hnd := canonicalDims_nodup da
  obtain ⟨hdims2, hdata2, hoth2, hmem2⟩ := foldlM_fixCoord_facts _ da da2 hnd h2
  obtain ⟨hdims3, hoth3, hprop3, hmem3⟩ := foldlM_sortby_facts _ da2 da3 hnd h3
  obtain ⟨hdims4, hcoords4, hdata4⟩ := transposeTo_some da3 r _ h4
  have hcanon : canonicalDims r = canonicalDims da := by
    by_cases hlev : "lev" ∈ da.dims
    · have h1 : canonicalDims da = ["time", "lat", "lon", "lev"] := by
        unfold canonicalDims
        rw [if_pos hlev]
      unfold canonicalDims
      rw [hdims4, h1]
      rw [if_pos (by decide)]
      exact h1.symm
    · have h1 : canonicalDims da = ["time", "lat", "lon"] := by
        unfold canonicalDims
        rw [if_neg hlev]
      unfold canonicalDims
      rw [hdims4, h1]
      rw [if_neg (by decide)]
      exact h1.symm
  refine ⟨hdims4, hcanon, ?_⟩
  intro d hd
  obtain ⟨c0, c, hc0, hcd, hdt, hsort, hclamp⟩ := hmem3 d hd
  obtain ⟨c1, hc1, hdtT, hdtF⟩ := hmem2 d hd
  rw [hc1] at hc0
  obtain rfl := Option.some.inj hc0
  refine ⟨c, ?_, hsort, ?_, ?_, ?_⟩
  · rw [hcoords4]
    exact hcd
  · intro hdT
    rw [hdt]
    exact hdtT hdT
  · intro hdF
    rw [hdt]
    exact hdtF hdF
  · rw [hdata4]
    exact hclamp

/-! ### Claim C4: what standardize_dims returns -/

/-- C4: a successful standardize_dims returns the dataset transposed to the
canonical dimension order (time, lat, lon, and lev exactly when a lev
dimension is present), with each of those coordinates sorted ascending,
every non-time coordinate of float dtype (cast from its original dtype),
and the time coordinate of datetime dtype (converted when it was not
already datetime). -/
theorem standardize_dims_spec (da : DataArray) (h : (standardize_dims da).isSome) :
    ((standardize_dims da).map DataArray.dims = some (canonicalDims da))
    ∧ ((standardize_dims da).map (fun r => (canonicalDims da).all (fun d =>
        match List.lookup d r.coords with
        | some c => decide (sortedCV c.vals)
            && (if d = "time" then c.dtype == DType.datetime else c.dtype == DType.float)
        | none => false)) = some true) := by
  obtain ⟨r, hr⟩ := Option.isSome_iff_exists.mp h
  obtain ⟨hdims, _, hmem⟩ := standardize_facts da r hr
  rw [hr]
  constructor
  · simp [hdims]
  · simp only [Option.map_some', Option.some.injEq]
    rw [List.all_eq_true]
    intro d hd
    obtain ⟨c, hc, hsort, hdtT, hdtF, _⟩ := hmem d hd
    rw [hc]
    simp only
    rw [Bool.and_eq_true]
    refine ⟨by simp [hsort], ?_⟩
    by_cases hdT : d = "time"
    · rw [if_pos hdT]
      simp [hdtT hdT]
    · rw [if_neg hdT]
      simp [hdtF hdT]

/-- Witness for C4 at a concrete raw array: unsorted integer latitudes, a
cftime time axis, dimensions out of canonical order. -/
theorem standardize_dims_spec_witness :
    (standardize_dims exRaw).isSome
    ∧ (((standardize_dims exRaw).map DataArray.dims = some (canonicalDims exRaw))
    ∧ ((standardize_dims exRaw).map (fun r => (canonicalDims exRaw).all (fun d =>
        match List.lookup d r.coords with
        | some c => decide (sortedCV c.vals)
            && (if d = "time" then c.dtype == DType.datetime else c.dtype == DType.float)
        | none => false)) = some true)) :=
  ⟨by decide, standardize_dims_spec exRaw (by decide)⟩

/-! ### Claim C2: standardize_dims is idempotent -/

/-- C2: applying standardize_dims twice yields the same sorted/transposed
result as applying it once (in the Kleisli sense: a second application to
any successful result returns that result unchanged; on failure both sides
fail). -/
theorem standardize_dims_idem (da : DataArray) :
    (standardize_dims da).bind standardize_dims = standardize_dims da := by
  cases hval : standardize_dims da with
  | none => rfl
  | some r =>
    rw [Option.some_bind]
    obtain ⟨hrdims, hcanon, hmem⟩ := standardize_facts da r hval
    have hfix : ∀ d ∈ canonicalDims da, fixCoord r d = some r := by
      intro d hd
      obtain ⟨c, hc, hsort, hdtT, hdtF, hclamp⟩ := hmem d hd
      by_cases hdT : d = "time"
      · subst hdT
        exact fixCoord_id_time r c hc (hdtT rfl)
      · exact fixCoord_id_float r d c hdT hc (hdtF hdT)
    have hsby : ∀ d ∈ canonicalDims da, sortby1 r d = some r := by
      intro d hd
      obtain ⟨c, hc, hsort, _, _, hclamp⟩ := hmem d hd
      exact sortby1_id r d c hc hsort hclamp
    unfold standardize_dims
    rw [hcanon]
    show (do
      let da2 ← List.foldlM fixCoord r (canonicalDims da)
      let da3 ← sortbyDims da2 (canonicalDims da)
      transposeTo da3 (canonicalDims da)) = some r
    rw [foldlM_id fixCoord _ r hfix]
    simp only [Option.bind_eq_bind, Option.some_bind]
    rw [show sortbyDims r (canonicalDims da) = some r from foldlM_id sortby1 _ r hsby]
    simp only [Option.some_bind]
    rw [← hrdims]
    exact transposeTo_self r

end Preproc
